import Mathlib

/-!
Verification development for the grid-based Bayesian negotiation demo
(`human_bayes_demo`).

The repository contains three engine variants:

* `part_000` — 4-issue engine, linear-domain posterior (`normalize2D`),
  ceil-based emotion mapping (`_utilityToEmotion`);
* `part_001` — 4-issue engine with an additional `EmotionModel` class whose
  `utilityToEmotion` is an if-else ladder with `NEUTRAL_EPSILON = 0`, while the
  Bayesian update uses `_predictEmotionFast` (the ceil mapping with
  tolerance `1e-3`);
* `part_002` — 3-issue engine, log-domain posterior with `logsumexp`
  normalization and a fixed-scale emotion scheme.

The JavaScript source computes with IEEE doubles; we embed its arithmetic over
an arbitrary linear ordered field `K` (instantiated with `ℚ` for executable
witnesses and with `ℝ` where the actual cosine/sine values of grid angles are
needed).  Wherever the source precomputes `c = Math.cos(theta)` and
`s = Math.sin(theta)` and only ever uses the pair `(c, s)`, the embedding takes
the pair as a parameter; theorems quantify over those values or instantiate
them with `Real.cos θ` / `Real.sin θ`.
-/

namespace BayesDemo

variable {K : Type*} [LinearOrderedField K]

/-- Dot product `dot(a, b) = a.reduce((sum, val, i) => sum + val * b[i], 0)`
from `part_000` line 140 / `part_001` line 85 (the source only applies it to
equal-length arrays). -/
def dot (a b : List K) : K := (List.zipWith (fun x y => x * y) a b).sum

/-- Pointwise difference `subtractArrays(a, b) = a.map((val, i) => val - b[i])`
from `part_000` line 143 / `part_001` line 89. -/
def subtractArrays (a b : List K) : List K := List.zipWith (fun x y => x - y) a b

/-- Probability normalization of a 1-D array, `normalize` from `part_000`
lines 146-150: divide by the sum, falling back to the uniform vector when the
sum is not positive. -/
def normalize (arr : List K) : List K :=
  let s := arr.sum
  if s ≤ 0 then arr.map (fun _ => 1 / (arr.length : K))
  else arr.map (fun v => v / s)

/-- Probability normalization of a 2-D array, `normalize2D` from `part_000`
lines 153-161: flatten, sum, divide every entry by the sum, falling back to
the uniform value `1 / flat.length` when the sum is not positive. -/
def normalize2D (arr2d : List (List K)) : List (List K) :=
  let flat := arr2d.flatten
  let s := flat.sum
  if s ≤ 0 then arr2d.map (fun row => row.map (fun _ => 1 / (flat.length : K)))
  else arr2d.map (fun row => row.map (fun v => v / s))

/-- All feasible offers, `generateAllOffers(Q)` from `part_000` lines 168-180 /
`part_001` lines 115-127: four nested loops `0 ≤ a ≤ Q[0]`, …, `0 ≤ d ≤ Q[3]`
pushing `[a, b, c, d]` in lexicographic order. -/
def generateAllOffers (q0 q1 q2 q3 : ℕ) : List (List K) :=
  (List.range (q0 + 1)).flatMap fun a : ℕ =>
    (List.range (q1 + 1)).flatMap fun b : ℕ =>
      (List.range (q2 + 1)).flatMap fun c : ℕ =>
        (List.range (q3 + 1)).map fun d : ℕ => [(a : K), (b : K), (c : K), (d : K)]

/-- JavaScript `Math.round` (round half toward positive infinity). -/
def jsRound (x : ℚ) : ℤ := ⌊x + 1 / 2⌋

/-- Rounding to two decimals, `Math.round(v * 100) / 100` (`generateWGrid`,
`part_000` line 185). -/
def rnd2 (x : ℚ) : ℚ := (jsRound (x * 100) : ℚ) / 100

/-- Rounding to three decimals, `Math.round(v * 1000) / 1000` (`range`,
`part_002` line 188). -/
def rnd3 (x : ℚ) : ℚ := (jsRound (x * 1000) : ℚ) / 1000

/-- Closed form of the accumulation loop
`for (let v = start; v <= stop + slack; v += step) arr.push(v)` used by every
grid generator in the source, evaluated in exact arithmetic.  For `step ≤ 0`
with `start ≤ stop + slack` the source loop does not terminate; that case is
never exercised (all configured steps are positive) and we return `[]`.
`arithSeq_eq_cons` and `arithSeq_eq_nil` below re-derive the loop semantics
from this closed form. -/
def arithSeq (start step slack stop : ℚ) : List ℚ :=
  if 0 < step ∧ start ≤ stop + slack then
    (List.range (⌊(stop + slack - start) / step⌋.toNat + 1)).map
      (fun k : ℕ => start + (k : ℚ) * step)
  else []

/-- The θ-grid in degrees: the iterated values of `generateThetaGrid`
(`part_000` lines 203-209) before the final `degToRad` mapping.  The source
stores `degToRad(t)` for each iterated degree value `t`; since `degToRad` is
injective and applied pointwise, endpoint membership and the grid size are
faithfully captured at the degree level. -/
def generateThetaGridDeg (tmin tmax tstep : ℚ) : List ℚ :=
  arithSeq tmin tstep (1 / 1000) tmax

/-- The w-grid component values of `generateWGrid` (`part_000` lines 183-187):
iterate with slack `0.001` and round each pushed value to two decimals. -/
def wGridValues (wmin wmax wstep : ℚ) : List ℚ :=
  (arithSeq wmin wstep (1 / 1000) wmax).map rnd2

/-- The full w-grid of `generateWGrid` (`part_000` lines 189-199): the 4-fold
Cartesian product of `wGridValues` in nested-loop order. -/
def generateWGrid (wmin wmax wstep : ℚ) : List (List ℚ) :=
  (wGridValues wmin wmax wstep).flatMap fun a =>
    (wGridValues wmin wmax wstep).flatMap fun b =>
      (wGridValues wmin wmax wstep).flatMap fun c =>
        (wGridValues wmin wmax wstep).map fun d => [a, b, c, d]

/-- The helper `range(start, end, step)` from `part_002` lines 185-191:
iterate with slack `1e-9` and round each pushed value to three decimals. -/
def rangeJS (start stop step : ℚ) : List ℚ :=
  (arithSeq start step (1 / 10 ^ 9) stop).map rnd3

section EmotionCores

variable [FloorRing K]

/-- The ceil-based emotion mapping, `_utilityToEmotion(utility, maxUtility)`
from `part_000` lines 367-379; the same expression forms the tail of
`_predictEmotionFast` (`part_001` lines 466-477) and of `_predictEmotion`
(`part_001` lines 403-414). -/
def utilityToEmotionCeil (utility maxUtility : K) : ℤ :=
  if utility - (maxUtility - 7) < -(1 / 1000) then -1
  else if |utility - (maxUtility - 7)| ≤ 1 / 1000 then 0
  else min 7 ⌈utility - (maxUtility - 7)⌉

/-- The if-else ladder of `EmotionModel.utilityToEmotion` (`part_001`
lines 194-215) after the brute-force maximum `maxU` has been computed;
`epsilon` is `CONFIG.NEUTRAL_EPSILON` (0 in the source configuration). -/
def emotionLadder (epsilon uOther maxU : K) : ℤ :=
  if uOther < maxU - 7 - epsilon then -1
  else if |uOther - (maxU - 7)| ≤ epsilon then 0
  else if uOther ≤ maxU - 7 + 1 then 1
  else if uOther ≤ maxU - 7 + 2 then 2
  else if uOther ≤ maxU - 7 + 3 then 3
  else if uOther ≤ maxU - 7 + 4 then 4
  else if uOther ≤ maxU - 7 + 5 then 5
  else if uOther ≤ maxU - 7 + 6 then 6
  else 7

end EmotionCores

/-- The brute-force maximum loop
`let maxU = -Infinity; for (const x of candX) { ... if (u > maxU) maxU = u }`
with `⊥ : WithBot K` playing the role of `-Infinity`
(`_precomputeUMAX`, `part_000` lines 344-355 / `part_001` lines 368-379;
the same loop appears inline in `computeTrueEmotion`, `part_000`
lines 408-415, and in `EmotionModel.utilityToEmotion`, `part_001`
lines 188-192). -/
def umaxWB (u : List K → K) (candX : List (List K)) : WithBot K :=
  candX.foldl (fun m x => max m ((u x : K) : WithBot K)) ⊥

/-- The same maximum loop valued in `K`.  On a nonempty candidate list this
agrees with `umaxWB` (lemma `umaxWB_eq_umax`); for the empty list — on which
the source would keep `-Infinity`, a case never reached because the candidate
list is always a full offer enumeration — we return `0`. -/
def umax (u : List K → K) (candX : List (List K)) : K :=
  match candX with
  | [] => 0
  | x :: xs => xs.foldl (fun m y => max m (u y)) (u x)

namespace EmotionModel

/-- The utility method `EmotionModel.utility(xSelf, wOther, theta)` from
`part_001` lines 174-179:
`cos(θ) * dot(wOther, q - xSelf) + sin(θ) * dot(wSelf, xSelf)`; `c`, `s`
stand for the `Math.cos(theta)`, `Math.sin(theta)` computed in its body. -/
def utility (q wSelf : List K) (c s : K) (xSelf wOther : List K) : K :=
  c * dot wOther (subtractArrays q xSelf) + s * dot wSelf xSelf

/-- The ladder-based emotion method `EmotionModel.utilityToEmotion` from
`part_001` lines 184-216: compute the utility, brute-force the maximum over
all candidates, then walk the if-else ladder with
`CONFIG.NEUTRAL_EPSILON = 0`.  (On an empty candidate list the source's
`-Infinity` arithmetic makes every guard false and returns 7; unreachable,
modelled directly.) -/
def utilityToEmotion [FloorRing K] (q wSelf : List K) (candX : List (List K))
    (c s : K) (xSelf wOther : List K) : ℤ :=
  match candX with
  | [] => 7
  | _ :: _ =>
      emotionLadder 0 (utility q wSelf c s xSelf wOther)
        (umax (fun x => utility q wSelf c s x wOther) candX)

/-- The generative step `EmotionModel.sampleEmotion(x, trueTheta, trueW)`
(`part_001` lines 221-223): the ladder emotion at the true parameters. -/
def sampleEmotion [FloorRing K] (q wSelf : List K) (candX : List (List K))
    (cT sT : K) (x trueW : List K) : ℤ :=
  utilityToEmotion q wSelf candX cT sT x trueW

end EmotionModel

namespace Engine

/-- The counterpart utility
`u = cos(θ) * dot(wOther, Q - x) + sin(θ) * dot(wSelf, x)` computed inline in
`_precomputeUMAX` (`part_000` line 351), `predictEmotion` (`part_000`
lines 390-392), `computeTrueEmotion` (`part_000` lines 403-405),
`EmotionModel.utility` (`part_001` lines 174-179), `_predictEmotionFast`
(`part_001` lines 461-464); `c` and `s` stand for the precomputed
`Math.cos(theta)` and `Math.sin(theta)`. -/
def utilityAt (q wSelf : List K) (c s : K) (wOther x : List K) : K :=
  c * dot wOther (subtractArrays q x) + s * dot wSelf x

/-- The precomputed maximum utility `UMAX[ti][wi]` (`_precomputeUMAX`,
`part_000` lines 334-358 / `part_001` lines 357-381).  `thetaCS` is the list
of `(Math.cos(θ_ti), Math.sin(θ_ti))` pairs for the θ-grid, `wGrid` the
w-grid; out-of-range indices (never used by the source) read as `(0, 0)` and
`[]`. -/
def UMAX (q wSelf : List K) (candX : List (List K)) (thetaCS : List (K × K))
    (wGrid : List (List K)) (ti wi : ℕ) : K :=
  let cs := thetaCS.getD ti (0, 0)
  let wOther := wGrid.getD wi []
  umax (utilityAt q wSelf cs.1 cs.2 wOther) candX

variable [FloorRing K]

/-- Predicted emotion for hypothesis `(ti, wi)` and offer `x`:
`predictEmotion` (`part_000` lines 385-395) and `_predictEmotionFast`
(`part_001` lines 457-478), which compute the utility and apply the ceil
mapping with the cached `UMAX[ti][wi]`.  (On an empty candidate list the
source arithmetic with `-Infinity` makes every guard false and yields 7;
that case is unreachable and modelled directly.) -/
def predictEmotion (q wSelf : List K) (candX : List (List K))
    (thetaCS : List (K × K)) (wGrid : List (List K)) (ti wi : ℕ)
    (x : List K) : ℤ :=
  match candX with
  | [] => 7
  | _ :: _ =>
      let cs := thetaCS.getD ti (0, 0)
      let wOther := wGrid.getD wi []
      utilityToEmotionCeil (utilityAt q wSelf cs.1 cs.2 wOther x)
        (UMAX q wSelf candX thetaCS wGrid ti wi)

/-- Emotion of the simulated true counterpart, `computeTrueEmotion`
(`part_000` lines 401-418): the brute-force maximum is recomputed for the
true parameters, then the ceil mapping is applied.  `cT`, `sT` stand for
`Math.cos(trueTheta)`, `Math.sin(trueTheta)`. -/
def computeTrueEmotion (q wSelf : List K) (candX : List (List K))
    (cT sT : K) (trueW x : List K) : ℤ :=
  match candX with
  | [] => 7
  | _ :: _ =>
      utilityToEmotionCeil (utilityAt q wSelf cT sT trueW x)
        (umax (utilityAt q wSelf cT sT trueW) candX)

/-- Likelihood of a matching prediction, `CONFIG.LIKELIHOOD_MATCH = 1 - 1e-9`
(`part_000` line 39); `part_001` computes the same value as `1 - epsilon`
(line 440). -/
def LIKELIHOOD_MATCH : K := 1 - 1 / 10 ^ 9

/-- Likelihood of a mismatching prediction,
`CONFIG.LIKELIHOOD_MISMATCH = 1e-9 / 8` (`part_000` line 40); `part_001`
computes the same value as `epsilon / (numClasses - 1)` (line 442). -/
def LIKELIHOOD_MISMATCH : K := 1 / 10 ^ 9 / 8

/-- The likelihood factor of the update loop (`part_000` lines 438-440 /
`part_001` lines 438-443): `LIKELIHOOD_MATCH` when the predicted emotion
equals the observed one, `LIKELIHOOD_MISMATCH` otherwise. -/
def likelihood (predicted observedEmotion : ℤ) : K :=
  if predicted = observedEmotion then LIKELIHOOD_MATCH else LIKELIHOOD_MISMATCH

/-- The pre-normalization posterior table built by the update loop
(`posterior[ti][wi] = prior[ti][wi] * likelihood`, `part_000` line 443 /
`part_001` line 445). -/
def rawPosterior [FloorRing K] (q wSelf : List K) (candX : List (List K))
    (thetaCS : List (K × K)) (wGrid : List (List K)) (observedEmotion : ℤ)
    (xProposal : List K) (prior : ℕ → ℕ → K) : List (List K) :=
  (List.range thetaCS.length).map fun ti : ℕ =>
    (List.range wGrid.length).map fun wi : ℕ =>
      prior ti wi *
        likelihood (predictEmotion q wSelf candX thetaCS wGrid ti wi xProposal)
          observedEmotion

/-- The Bayesian update, `update(observedEmotion, xProposal)` from `part_000`
lines 426-449 / `part_001` lines 420-452: for every grid cell multiply the
prior entry by the match/mismatch likelihood of the predicted emotion, then
renormalize with `normalize2D`.  `prior ti wi` models the array read
`prior[ti][wi]` of the stored joint distribution. -/
def update [FloorRing K] (q wSelf : List K) (candX : List (List K))
    (thetaCS : List (K × K)) (wGrid : List (List K)) (observedEmotion : ℤ)
    (xProposal : List K) (prior : ℕ → ℕ → K) : List (List K) :=
  normalize2D
    (rawPosterior q wSelf candX thetaCS wGrid observedEmotion xProposal prior)

end Engine

namespace ThreeLog

/-- Linear utility `u(x; w) = Σ w_i x_i` (`part_002` line 182). -/
def utility (offer w : List K) : K := dot offer w

/-- Maximum absolute component of `W_SELF`,
`Math.max(...CONFIG.W_SELF.map(Math.abs))` (`part_002` line 429), for the
nonempty weight lists the source uses (the empty case would be `-Infinity`
and is modelled as `0`). -/
def selfAbsMax (wSelf : List K) : K :=
  match wSelf.map (fun v => |v|) with
  | [] => 0
  | a :: as => as.foldl max a

/-- The fixed scale `_computeScale()` from `part_002` lines 423-435:
`(max(W_GRID_MAX, |W_GRID_MIN|) + max |W_SELF_i|) * ΣQ_i / EMOTION_RANGE_MAX`. -/
def computeScale (wGridMin wGridMax : K) (wSelf q : List K) : K :=
  let wAbsMax := max wGridMax |wGridMin|
  let qSum := q.sum
  let maxUtil := (wAbsMax + selfAbsMax wSelf) * qSum
  maxUtil / 7

/-- The fixed-scale emotion, `computeTrueEmotion(offer, theta, wOther)` from
`part_002` lines 402-421: `clip(floor((uSelf + cosθ · uOther) / scale), -1, 7)`.
`cosTheta` stands for `Math.cos(degToRad(theta))`. -/
def computeTrueEmotion [FloorRing K] (wGridMin wGridMax : K) (wSelf q : List K)
    (cosTheta : K) (offer wOther : List K) : ℤ :=
  max (-1) (min 7
    ⌊(utility offer wSelf + cosTheta * utility (subtractArrays q offer) wOther) /
      computeScale wGridMin wGridMax wSelf q⌋)

/-- Numerically-shifted log-sum-exp, `logsumexp(logArr)` from `part_002`
lines 197-201: `maxLog + log(Σ exp(x - maxLog))`.  On the empty list the
source returns `-Infinity`; that case is unreachable (the posterior table is
nonempty) and modelled as `0`. -/
noncomputable def logsumexp (logArr : List ℝ) : ℝ :=
  match logArr.max? with
  | none => 0
  | some maxLog => maxLog + Real.log ((logArr.map (fun x => Real.exp (x - maxLog))).sum)

/-- Log-domain normalization, `_normalizeLogPosterior` from `part_002`
lines 267-274: subtract `logsumexp` of all entries from every entry. -/
noncomputable def normalizeLogPosterior (lp : List ℝ) : List ℝ :=
  lp.map (fun v => v - logsumexp lp)

/-- One log-domain Bayesian update, `updateWithLogLikelihood` (`part_002`
lines 257-265): add the per-hypothesis log-likelihood to every entry of the
stored log-posterior table, then normalize with `_normalizeLogPosterior`.
The dictionary over the `n` hypothesis keys is modelled by its value reads
`logp i`, with `logLik i` the log-likelihood of the `i`-th hypothesis. -/
noncomputable def updateWithLogLikelihood (n : ℕ) (logp logLik : ℕ → ℝ) : List ℝ :=
  normalizeLogPosterior ((List.range n).map fun i : ℕ => logp i + logLik i)

/-- The log-likelihood used by `update` (`part_002` lines 440-452):
`log(LIKELIHOOD_MATCH)` on a matching prediction, `log(LIKELIHOOD_MISMATCH)`
otherwise. -/
noncomputable def logLikelihoodOf (predicted observed : ℤ) : ℝ :=
  if predicted = observed then Real.log (Engine.LIKELIHOOD_MATCH (K := ℝ))
  else Real.log (Engine.LIKELIHOOD_MISMATCH (K := ℝ))

end ThreeLog

/-- The per-round mutable state of `NegotiationGame` (`part_000`
lines 457-549) that `applyOffer` touches: the round counter, the history and
the stored joint distribution.  The source's history entries additionally
carry posterior summary statistics (mean estimates); those are derived data
and are omitted here. -/
structure GameState (K : Type*) where
  round : ℕ
  history : List (ℕ × List K × ℤ)
  distribution : List (List K)

/-- The offer-application step `applyOffer(x)` from `part_000` lines 502-534:
increment the round counter, compute the true counterpart's emotion, run the
Bayesian update on the stored distribution, and append to the history.  The
source performs no validation of `x` whatsoever.  `cT`, `sT` stand for
`Math.cos(trueTheta)`, `Math.sin(trueTheta)`. -/
def applyOffer [FloorRing K] (q wSelf : List K) (candX : List (List K))
    (thetaCS : List (K × K)) (wGrid : List (List K)) (cT sT : K)
    (trueW : List K) (g : GameState K) (x : List K) : GameState K :=
  let newRound := g.round + 1
  let emotion := Engine.computeTrueEmotion q wSelf candX cT sT trueW x
  let newDist := Engine.update q wSelf candX thetaCS wGrid emotion x
    (fun ti wi => (g.distribution.getD ti []).getD wi 0)
  { round := newRound
    history := g.history ++ [(newRound, x, emotion)]
    distribution := newDist }

/-- Validity of an offer according to the specification: correct
dimensionality and `0 ≤ x_i ≤ Q_i` componentwise.  (The source never checks
this; the predicate is only used to state claim C9.) -/
def validOffer (q x : List K) : Prop :=
  x.length = q.length ∧ ∀ i < q.length, 0 ≤ x.getD i 0 ∧ x.getD i 0 ≤ q.getD i 0

/-- Modelled from the spec: the closed-form vertex maximum of section 4.4 —
choose each coordinate `x_i` in `(0, Q_i)` from the sign of its per-issue
coefficient, giving `Σ_i max(cos θ · w_i · Q_i, sin θ · wSelf_i · Q_i)`.
This `O(D)` algorithm is the spec's recommended production implementation and
does not appear in the source, which only has the brute-force loop. -/
def fastMax4 (c s w0 w1 w2 w3 ws0 ws1 ws2 ws3 : K) (q0 q1 q2 q3 : ℕ) : K :=
  max (c * w0 * q0) (s * ws0 * q0) + max (c * w1 * q1) (s * ws1 * q1) +
    max (c * w2 * q2) (s * ws2 * q2) + max (c * w3 * q3) (s * ws3 * q3)

/-- Loop-exit case of the closed form: when the entry condition fails the loop
body never runs. -/
theorem arithSeq_eq_nil {start step slack stop : ℚ} (h : ¬ start ≤ stop + slack) :
    arithSeq start step slack stop = [] := by
  unfold arithSeq
  rw [if_neg]
  rintro ⟨-, h2⟩
  exact h h2

/-- Loop-step case of the closed form: when the entry condition holds, the
loop pushes `start` and continues from `start + step`. -/
theorem arithSeq_eq_cons {start step slack stop : ℚ} (hstep : 0 < step)
    (h : start ≤ stop + slack) :
    arithSeq start step slack stop =
      start :: arithSeq (start + step) step slack stop := by
  unfold arithSeq
  rw [if_pos ⟨hstep, h⟩]
  by_cases h2 : start + step ≤ stop + slack
  · rw [if_pos ⟨hstep, h2⟩]
    have hK : ⌊(stop + slack - start) / step⌋ =
        ⌊(stop + slack - (start + step)) / step⌋ + 1 := by
      have : (stop + slack - (start + step)) / step =
          (stop + slack - start) / step - 1 := by
        field_simp
        ring
      rw [this, Int.floor_sub_one]
      ring
    have hK0 : 0 ≤ ⌊(stop + slack - (start + step)) / step⌋ := by
      apply Int.floor_nonneg.2
      apply div_nonneg _ hstep.le
      linarith
    rw [hK]
    have htoNat : (⌊(stop + slack - (start + step)) / step⌋ + 1).toNat =
        ⌊(stop + slack - (start + step)) / step⌋.toNat + 1 := by
      omega
    rw [htoNat, List.range_succ_eq_map]
    simp only [List.map_cons, Nat.cast_zero, zero_mul, add_zero, List.map_map]
    congr 1
    apply List.map_congr_left
    intro k _
    simp only [Function.comp_apply, Nat.succ_eq_add_one]
    push_cast
    ring
  · rw [if_neg (by rintro ⟨-, hc⟩; exact h2 hc)]
    have hK : ⌊(stop + slack - start) / step⌋ = 0 := by
      apply Int.floor_eq_zero_iff.2
      constructor
      · apply div_nonneg _ hstep.le
        linarith
      · rw [div_lt_one hstep]
        linarith
    rw [hK]
    norm_num [List.range_succ]

/-- Membership characterization of the closed-form loop. -/
theorem mem_arithSeq {start step slack stop : ℚ} (hstep : 0 < step) {a : ℚ} :
    a ∈ arithSeq start step slack stop ↔
      ∃ k : ℕ, (k : ℤ) ≤ ⌊(stop + slack - start) / step⌋ ∧
        a = start + (k : ℚ) * step := by
  unfold arithSeq
  by_cases h : start ≤ stop + slack
  · have hK0 : 0 ≤ ⌊(stop + slack - start) / step⌋ := by
      apply Int.floor_nonneg.2
      apply div_nonneg _ hstep.le
      linarith
    rw [if_pos ⟨hstep, h⟩]
    simp only [List.mem_map, List.mem_range]
    constructor
    · rintro ⟨k, hk, hak⟩
      exact ⟨k, by omega, hak.symm⟩
    · rintro ⟨k, hk, hak⟩
      exact ⟨k, by omega, hak.symm⟩
  · rw [if_neg (by rintro ⟨-, hc⟩; exact h hc)]
    have hK : ⌊(stop + slack - start) / step⌋ < 0 := by
      rw [Int.floor_lt]
      push_cast
      apply div_neg_of_neg_of_pos _ hstep
      linarith
    simp only [List.not_mem_nil, false_iff, not_exists, not_and]
    intro k hk
    omega

theorem foldl_max_eq_withBot (u : List K → K) (xs : List (List K)) (a : K) :
    xs.foldl (fun m x => max m ((u x : K) : WithBot K)) (a : WithBot K) =
      ((xs.foldl (fun m y => max m (u y)) a : K) : WithBot K) := by
  induction xs generalizing a with
  | nil => rfl
  | cons x xs ih =>
      simp only [List.foldl_cons]
      rw [← WithBot.coe_max, ih]

/-- On a nonempty candidate list the `-Infinity`-seeded loop agrees with the
`K`-valued one. -/
theorem umaxWB_eq_umax (u : List K → K) (x : List K) (xs : List (List K)) :
    umaxWB u (x :: xs) = ((umax u (x :: xs) : K) : WithBot K) := by
  unfold umaxWB umax
  simp only [List.foldl_cons]
  rw [show max (⊥ : WithBot K) ((u x : K) : WithBot K) = ((u x : K) : WithBot K) from
    max_eq_right bot_le]
  exact foldl_max_eq_withBot u xs (u x)

/-- Every list element is bounded by the running maximum of the loop. -/
theorem le_foldl_max (u : List K → K) (xs : List (List K)) (a : K) :
    (a ≤ xs.foldl (fun m y => max m (u y)) a) ∧
      ∀ x ∈ xs, u x ≤ xs.foldl (fun m y => max m (u y)) a := by
  induction xs generalizing a with
  | nil => exact ⟨le_refl a, by simp⟩
  | cons x xs ih =>
      refine ⟨?_, ?_⟩
      · exact le_trans (le_max_left a (u x)) (ih (max a (u x))).1
      · intro y hy
        rcases List.mem_cons.1 hy with rfl | hy
        · exact le_trans (le_max_right a (u y)) (ih (max a (u y))).1
        · exact (ih (max a (u x))).2 y hy

/-- The running maximum of the loop is one of the candidates (or the seed). -/
theorem foldl_max_mem (u : List K → K) (xs : List (List K)) (a : K) :
    xs.foldl (fun m y => max m (u y)) a = a ∨
      ∃ x ∈ xs, xs.foldl (fun m y => max m (u y)) a = u x := by
  induction xs generalizing a with
  | nil => exact Or.inl rfl
  | cons x xs ih =>
      rcases ih (max a (u x)) with h | ⟨y, hy, h⟩
      · simp only [List.foldl_cons]
        rcases max_cases a (u x) with ⟨hm, -⟩ | ⟨hm, -⟩
        · exact Or.inl (by rw [h, hm])
        · exact Or.inr ⟨x, List.mem_cons_self x xs, by rw [h, hm]⟩
      · exact Or.inr ⟨y, List.mem_cons_of_mem x hy, by simpa using h⟩

/-- For a nonempty list, `umax` is an upper bound of all candidate values and
is attained by one of them. -/
theorem umax_spec (u : List K → K) (candX : List (List K)) (hne : candX ≠ []) :
    (∀ x ∈ candX, u x ≤ umax u candX) ∧ ∃ x ∈ candX, umax u candX = u x := by
  match candX with
  | [] => exact absurd rfl hne
  | x :: xs =>
      unfold umax
      constructor
      · intro y hy
        rcases List.mem_cons.1 hy with rfl | hy
        · exact (le_foldl_max u xs (u y)).1
        · exact (le_foldl_max u xs (u x)).2 y hy
      · rcases foldl_max_mem u xs (u x) with h | ⟨y, hy, h⟩
        · exact ⟨x, List.mem_cons_self x xs, h⟩
        · exact ⟨y, List.mem_cons_of_mem x hy, h⟩

/-- Unfolding of `EmotionModel.utilityToEmotion` on a nonempty candidate
list. -/
theorem emotionModel_utilityToEmotion_cons [FloorRing K] (q wSelf : List K)
    (x0 : List K) (rest : List (List K)) (c s : K) (xSelf wOther : List K) :
    EmotionModel.utilityToEmotion q wSelf (x0 :: rest) c s xSelf wOther =
      emotionLadder 0 (EmotionModel.utility q wSelf c s xSelf wOther)
        (umax (fun x => EmotionModel.utility q wSelf c s x wOther)
          (x0 :: rest)) := rfl

section IndexLemmas

variable {α β : Type*}

theorem getD_map_of_lt (g : α → β) (l : List α) {i : ℕ} (hi : i < l.length)
    (d : β) (d2 : α) : (l.map g).getD i d = g (l.getD i d2) := by
  rw [List.getD_eq_getElem?_getD, List.getD_eq_getElem?_getD,
    List.getElem?_map, List.getElem?_eq_getElem hi]
  rfl

theorem getD_map_range (f : ℕ → α) {i n : ℕ} (hi : i < n) (d : α) :
    ((List.range n).map f).getD i d = f i := by
  rw [getD_map_of_lt f (List.range n) (by simpa using hi) d 0]
  congr 1
  rw [List.getD_eq_getElem?_getD, List.getElem?_range hi]
  rfl

end IndexLemmas

section Normalize2DLemmas

theorem normalize2D_of_nonpos {m : List (List K)} (h : m.flatten.sum ≤ 0) :
    normalize2D m = m.map (fun row => row.map (fun _ => 1 / (m.flatten.length : K))) := by
  unfold normalize2D
  rw [if_pos h]

theorem normalize2D_of_pos {m : List (List K)} (h : ¬ m.flatten.sum ≤ 0) :
    normalize2D m = m.map (fun row => row.map (fun v => v / m.flatten.sum)) := by
  unfold normalize2D
  rw [if_neg h]

theorem sum_map_const_eq {l : List K} {c : K} :
    (l.map (fun _ => c)).sum = (l.length : K) * c := by
  induction l with
  | nil => simp
  | cons a as ih =>
      simp only [List.map_cons, List.sum_cons, ih, List.length_cons]
      push_cast
      ring

/-- After `normalize2D`, the entries sum to exactly 1 (provided the table is
nonempty). -/
theorem normalize2D_sum_one {m : List (List K)} (h : m.flatten ≠ []) :
    (normalize2D m).flatten.sum = 1 := by
  have hlen : (0 : K) < (m.flatten.length : K) := by
    have : 0 < m.flatten.length := List.length_pos.2 h
    exact_mod_cast this
  by_cases hs : m.flatten.sum ≤ 0
  · rw [normalize2D_of_nonpos hs, ← List.map_flatten, sum_map_const_eq,
      mul_one_div, div_self (ne_of_gt hlen)]
  · rw [normalize2D_of_pos hs, ← List.map_flatten]
    have h2 : (m.flatten.map (fun v => v / m.flatten.sum)).sum
        = (m.flatten.map (fun v => v * (m.flatten.sum)⁻¹)).sum := by
      simp [div_eq_mul_inv]
    rw [h2, List.sum_map_mul_right, List.map_id', mul_inv_cancel₀ (by linarith)]

end Normalize2DLemmas

section LogDomainLemmas

/-- The shifted log-sum-exp equals the plain one:
`exp(logsumexp L) = Σ exp(L_i)` for a nonempty table. -/
theorem exp_logsumexp {L : List ℝ} (h : L ≠ []) :
    Real.exp (ThreeLog.logsumexp L) = (L.map Real.exp).sum := by
  obtain ⟨m, hm⟩ : ∃ m, L.max? = some m := by
    cases h2 : L.max? with
    | none => exact absurd (List.max?_eq_none_iff.1 h2) h
    | some m => exact ⟨m, rfl⟩
  have hS : 0 < (L.map (fun x => Real.exp (x - m))).sum := by
    apply List.sum_pos
    · intro y hy
      rcases List.mem_map.1 hy with ⟨v, -, rfl⟩
      exact Real.exp_pos _
    · simpa [List.map_eq_nil_iff] using h
  unfold ThreeLog.logsumexp
  rw [hm]
  rw [Real.exp_add, Real.exp_log hS, ← List.sum_map_mul_left]
  congr 1
  apply List.map_congr_left
  intro v hv
  rw [← Real.exp_add, add_sub_cancel]

/-- After log-domain normalization the exponentials of the entries sum to
exactly 1 (nonempty table). -/
theorem sumexp_normalizeLogPosterior {lp : List ℝ} (h : lp ≠ []) :
    ((ThreeLog.normalizeLogPosterior lp).map Real.exp).sum = 1 := by
  have hS : 0 < (lp.map Real.exp).sum := by
    apply List.sum_pos
    · intro y hy
      rcases List.mem_map.1 hy with ⟨v, -, rfl⟩
      exact Real.exp_pos _
    · simpa [List.map_eq_nil_iff] using h
  unfold ThreeLog.normalizeLogPosterior
  rw [List.map_map]
  have hfn : ∀ v : ℝ, (Real.exp ∘ fun v => v - ThreeLog.logsumexp lp) v =
      Real.exp v * ((lp.map Real.exp).sum)⁻¹ := by
    intro v
    simp only [Function.comp_apply, Real.exp_sub, exp_logsumexp h]
    rw [div_eq_mul_inv]
  rw [List.map_congr_left (fun v _ => hfn v), List.sum_map_mul_right,
    mul_inv_cancel₀ (ne_of_gt hS)]

/-- Positivity of the two likelihood constants and the value of their logs. -/
theorem exp_logLikelihoodOf (p e : ℤ) :
    Real.exp (ThreeLog.logLikelihoodOf p e) = Engine.likelihood (K := ℝ) p e := by
  unfold ThreeLog.logLikelihoodOf Engine.likelihood
  split
  · rw [Real.exp_log (by norm_num [Engine.LIKELIHOOD_MATCH])]
  · rw [Real.exp_log (by norm_num [Engine.LIKELIHOOD_MISMATCH])]

end LogDomainLemmas

section EvalLemmas

@[simp]
theorem dot_nil_left (b : List K) : dot ([] : List K) b = 0 := rfl

@[simp]
theorem dot_nil_right (a : List K) : dot a ([] : List K) = 0 := by
  cases a <;> rfl

@[simp]
theorem dot_cons (a b : K) (as bs : List K) :
    dot (a :: as) (b :: bs) = a * b + dot as bs := by
  unfold dot
  simp

@[simp]
theorem subtractArrays_nil_left (b : List K) :
    subtractArrays ([] : List K) b = [] := rfl

@[simp]
theorem subtractArrays_nil_right (a : List K) :
    subtractArrays a ([] : List K) = [] := by
  cases a <;> rfl

@[simp]
theorem subtractArrays_cons (a b : K) (as bs : List K) :
    subtractArrays (a :: as) (b :: bs) = (a - b) :: subtractArrays as bs := rfl

theorem dot_comm (a b : List K) : dot a b = dot b a := by
  induction a generalizing b with
  | nil => cases b <;> simp
  | cons x xs ih =>
      cases b with
      | nil => simp
      | cons y ys => simp [dot_cons, ih, mul_comm]

theorem umax_singleton (u : List K → K) (x : List K) : umax u [x] = u x := rfl

theorem umax_cons (u : List K → K) (x : List K) (xs : List (List K)) :
    umax u (x :: xs) = xs.foldl (fun m y => max m (u y)) (u x) := rfl

theorem predictEmotion_nil [FloorRing K] (q wSelf : List K)
    (thetaCS : List (K × K)) (wGrid : List (List K)) (ti wi : ℕ) (x : List K) :
    Engine.predictEmotion q wSelf [] thetaCS wGrid ti wi x = 7 := rfl

/-- Unfolding of `predictEmotion` on a nonempty candidate list. -/
theorem predictEmotion_cons [FloorRing K] (q wSelf : List K) (x0 : List K)
    (rest : List (List K)) (thetaCS : List (K × K)) (wGrid : List (List K))
    (ti wi : ℕ) (x : List K) :
    Engine.predictEmotion q wSelf (x0 :: rest) thetaCS wGrid ti wi x =
      utilityToEmotionCeil
        (Engine.utilityAt q wSelf (thetaCS.getD ti (0, 0)).1
          (thetaCS.getD ti (0, 0)).2 (wGrid.getD wi []) x)
        (Engine.UMAX q wSelf (x0 :: rest) thetaCS wGrid ti wi) := rfl

/-- Unfolding of `computeTrueEmotion` on a nonempty candidate list. -/
theorem computeTrueEmotion_cons [FloorRing K] (q wSelf : List K)
    (x0 : List K) (rest : List (List K)) (cT sT : K) (trueW x : List K) :
    Engine.computeTrueEmotion q wSelf (x0 :: rest) cT sT trueW x =
      utilityToEmotionCeil (Engine.utilityAt q wSelf cT sT trueW x)
        (umax (Engine.utilityAt q wSelf cT sT trueW) (x0 :: rest)) := rfl

end EvalLemmas

section VertexMax

/-- A linear per-issue term on `[0, n]` is bounded by its value at the
endpoints. -/
theorem linear_term_le_max (A B t n : K) (h0 : 0 ≤ t) (hn : t ≤ n) :
    A * (n - t) + B * t ≤ max (A * n) (B * n) := by
  rcases le_total A B with h | h
  · have h1 : A * (n - t) ≤ B * (n - t) :=
      mul_le_mul_of_nonneg_right h (sub_nonneg.2 hn)
    have h2 : A * (n - t) + B * t ≤ B * n := by nlinarith
    exact le_trans h2 (le_max_right _ _)
  · have h1 : B * t ≤ A * t := mul_le_mul_of_nonneg_right h h0
    have h2 : A * (n - t) + B * t ≤ A * n := by nlinarith
    exact le_trans h2 (le_max_left _ _)

/-- Membership characterization of the 4-issue offer enumeration. -/
theorem mem_generateAllOffers {q0 q1 q2 q3 : ℕ} {y : List K} :
    y ∈ generateAllOffers (K := K) q0 q1 q2 q3 ↔
      ∃ a b c d : ℕ, a ≤ q0 ∧ b ≤ q1 ∧ c ≤ q2 ∧ d ≤ q3 ∧
        y = [(a : K), (b : K), (c : K), (d : K)] := by
  simp only [generateAllOffers, List.mem_flatMap, List.mem_map, List.mem_range,
    Nat.lt_succ_iff]
  constructor
  · rintro ⟨a, ha, b, hb, c, hc, d, hd, rfl⟩
    exact ⟨a, b, c, d, ha, hb, hc, hd, rfl⟩
  · rintro ⟨a, b, c, d, ha, hb, hc, hd, rfl⟩
    exact ⟨a, ha, b, hb, c, hc, d, hd, rfl⟩

/-- The offer enumeration is never empty. -/
theorem generateAllOffers_ne_nil (q0 q1 q2 q3 : ℕ) :
    generateAllOffers (K := K) q0 q1 q2 q3 ≠ [] := by
  apply List.ne_nil_of_mem (a := [(0 : K), 0, 0, 0])
  exact mem_generateAllOffers.2
    ⟨0, 0, 0, 0, Nat.zero_le _, Nat.zero_le _, Nat.zero_le _, Nat.zero_le _, by norm_num⟩

/-- The engine utility on an explicit 4-component offer, rearranged into
per-issue terms. -/
theorem utilityAt_quadruple (cs ss w0 w1 w2 w3 ws0 ws1 ws2 ws3 : K)
    (q0 q1 q2 q3 a b c d : ℕ) :
    Engine.utilityAt [(q0 : K), (q1 : K), (q2 : K), (q3 : K)]
        [ws0, ws1, ws2, ws3] cs ss [w0, w1, w2, w3]
        [(a : K), (b : K), (c : K), (d : K)] =
      (cs * w0 * ((q0 : K) - a) + ss * ws0 * a) +
      (cs * w1 * ((q1 : K) - b) + ss * ws1 * b) +
      (cs * w2 * ((q2 : K) - c) + ss * ws2 * c) +
      (cs * w3 * ((q3 : K) - d) + ss * ws3 * d) := by
  simp only [Engine.utilityAt, subtractArrays_cons, subtractArrays_nil_left,
    subtractArrays_nil_right, dot_cons, dot_nil_left, dot_nil_right]
  ring

/-- The per-issue vertex choice: an endpoint of `[0, q]` attaining
`max(cs * w * q, ss * ws * q)`. -/
theorem vertex_choice (cs ss w ws : K) (q : ℕ) :
    ∃ e : ℕ, e ≤ q ∧
      cs * w * ((q : K) - e) + ss * ws * e = max (cs * w * q) (ss * ws * q) := by
  rcases le_total (cs * w * q) (ss * ws * q) with h | h
  · refine ⟨q, le_refl _, ?_⟩
    rw [max_eq_right h]
    ring
  · refine ⟨0, Nat.zero_le _, ?_⟩
    rw [max_eq_left h]
    push_cast
    ring

/-- The brute-force maximum over the full 4-issue offer enumeration equals the
closed-form vertex maximum `Σ_i max(cos θ · w_i · Q_i, sin θ · wSelf_i · Q_i)`. -/
theorem umax_generateAllOffers_eq_vertex
    (cs ss w0 w1 w2 w3 ws0 ws1 ws2 ws3 : K) (q0 q1 q2 q3 : ℕ) :
    umax
        (Engine.utilityAt [(q0 : K), (q1 : K), (q2 : K), (q3 : K)]
          [ws0, ws1, ws2, ws3] cs ss [w0, w1, w2, w3])
        (generateAllOffers q0 q1 q2 q3) =
      max (cs * w0 * q0) (ss * ws0 * q0) + max (cs * w1 * q1) (ss * ws1 * q1) +
      max (cs * w2 * q2) (ss * ws2 * q2) + max (cs * w3 * q3) (ss * ws3 * q3) := by
  have hne := generateAllOffers_ne_nil (K := K) q0 q1 q2 q3
  obtain ⟨hub, xm, hxm, hmax⟩ :=
    umax_spec
      (Engine.utilityAt [(q0 : K), (q1 : K), (q2 : K), (q3 : K)]
        [ws0, ws1, ws2, ws3] cs ss [w0, w1, w2, w3])
      (generateAllOffers q0 q1 q2 q3) hne
  apply le_antisymm
  · rw [hmax]
    obtain ⟨a, b, c, d, ha, hb, hc, hd, rfl⟩ := mem_generateAllOffers.1 hxm
    rw [utilityAt_quadruple]
    have t0 := linear_term_le_max (cs * w0) (ss * ws0) (a : K) (q0 : K)
      (by positivity) (by exact_mod_cast ha)
    have t1 := linear_term_le_max (cs * w1) (ss * ws1) (b : K) (q1 : K)
      (by positivity) (by exact_mod_cast hb)
    have t2 := linear_term_le_max (cs * w2) (ss * ws2) (c : K) (q2 : K)
      (by positivity) (by exact_mod_cast hc)
    have t3 := linear_term_le_max (cs * w3) (ss * ws3) (d : K) (q3 : K)
      (by positivity) (by exact_mod_cast hd)
    exact add_le_add (add_le_add (add_le_add t0 t1) t2) t3
  · obtain ⟨e0, he0, ht0⟩ := vertex_choice cs ss w0 ws0 q0
    obtain ⟨e1, he1, ht1⟩ := vertex_choice cs ss w1 ws1 q1
    obtain ⟨e2, he2, ht2⟩ := vertex_choice cs ss w2 ws2 q2
    obtain ⟨e3, he3, ht3⟩ := vertex_choice cs ss w3 ws3 q3
    have hmem : [(e0 : K), (e1 : K), (e2 : K), (e3 : K)] ∈
        generateAllOffers (K := K) q0 q1 q2 q3 :=
      mem_generateAllOffers.2 ⟨e0, e1, e2, e3, he0, he1, he2, he3, rfl⟩
    have hval := hub _ hmem
    rw [utilityAt_quadruple, ht0, ht1, ht2, ht3] at hval
    exact hval

end VertexMax

section TrigBounds

/-- Rational bounds for `π/72` from the 6-digit bounds on `π`. -/
theorem pi72_bounds :
    (392699 / 9000000 : ℝ) ≤ Real.pi / 72 ∧
      Real.pi / 72 ≤ (3141593 / 72000000 : ℝ) := by
  constructor
  · linarith [Real.pi_gt_d6]
  · linarith [Real.pi_lt_d6]

theorem abs_pi72_le_one : |Real.pi / 72| ≤ 1 := by
  rw [abs_of_nonneg (by positivity)]
  linarith [Real.pi_lt_d6]

/-- Rational bounds for `sin(π/72)` via the quartic Taylor bound. -/
theorem sin_pi72_bounds :
    (436191881 / 10 ^ 10 : ℝ) ≤ Real.sin (Real.pi / 72) ∧
      Real.sin (Real.pi / 72) ≤ (436195797 / 10 ^ 10 : ℝ) := by
  obtain ⟨hx1, hx2⟩ := pi72_bounds
  have hx0 : (0 : ℝ) ≤ Real.pi / 72 := by positivity
  have hb := Real.sin_bound abs_pi72_le_one
  rw [abs_of_nonneg hx0] at hb
  obtain ⟨hlo, hhi⟩ := abs_le.1 hb
  have h3u : (Real.pi / 72) ^ 3 ≤ (3141593 / 72000000 : ℝ) ^ 3 :=
    pow_le_pow_left₀ hx0 hx2 3
  have h3l : (392699 / 9000000 : ℝ) ^ 3 ≤ (Real.pi / 72) ^ 3 :=
    pow_le_pow_left₀ (by norm_num) hx1 3
  have h4u : (Real.pi / 72) ^ 4 ≤ (3141593 / 72000000 : ℝ) ^ 4 :=
    pow_le_pow_left₀ hx0 hx2 4
  constructor
  · nlinarith [hlo, hx1, h3u, h4u]
  · nlinarith [hhi, hx2, h3l, h4u]

/-- Rational bounds for `cos(π/72)` via the quadratic Taylor bound. -/
theorem cos_pi72_bounds :
    (1998095763 / 2000000000 : ℝ) ≤ Real.cos (Real.pi / 72) ∧
      Real.cos (Real.pi / 72) ≤ (4995241299 / 5000000000 : ℝ) := by
  obtain ⟨hx1, hx2⟩ := pi72_bounds
  have hx0 : (0 : ℝ) ≤ Real.pi / 72 := by positivity
  have hb := Real.cos_bound abs_pi72_le_one
  rw [abs_of_nonneg hx0] at hb
  obtain ⟨hlo, hhi⟩ := abs_le.1 hb
  have h2u : (Real.pi / 72) ^ 2 ≤ (3141593 / 72000000 : ℝ) ^ 2 :=
    pow_le_pow_left₀ hx0 hx2 2
  have h2l : (392699 / 9000000 : ℝ) ^ 2 ≤ (Real.pi / 72) ^ 2 :=
    pow_le_pow_left₀ (by norm_num) hx1 2
  have h4u : (Real.pi / 72) ^ 4 ≤ (3141593 / 72000000 : ℝ) ^ 4 :=
    pow_le_pow_left₀ hx0 hx2 4
  constructor
  · nlinarith [hlo, h2u, h4u]
  · nlinarith [hhi, h2l, h4u]

/-- Interval propagation through the double-angle identities
`sin 2y = 2 sin y cos y` and `cos 2y = 1 - 2 sin² y` (the latter via
`cos 2y = cos² y - sin² y` and Pythagoras), for first-quadrant intervals. -/
theorem sin_cos_double_bounds {y sl sh cl ch : ℝ}
    (hs1 : sl ≤ Real.sin y) (hs2 : Real.sin y ≤ sh)
    (hc1 : cl ≤ Real.cos y) (hc2 : Real.cos y ≤ ch)
    (hsl : 0 ≤ sl) (hcl : 0 ≤ cl) :
    (2 * sl * cl ≤ Real.sin (2 * y) ∧ Real.sin (2 * y) ≤ 2 * sh * ch) ∧
      (1 - 2 * sh ^ 2 ≤ Real.cos (2 * y) ∧
        Real.cos (2 * y) ≤ 1 - 2 * sl ^ 2) := by
  have hsin2 := Real.sin_two_mul y
  have hcos2 := Real.cos_two_mul' y
  have hpyth := Real.sin_sq_add_cos_sq y
  refine ⟨⟨?_, ?_⟩, ?_, ?_⟩ <;> nlinarith

/-- Rational bounds for `sin(π/36)` and `cos(π/36)`. -/
theorem sin_cos_pi36_bounds :
    ((871553149 / 10 ^ 10 : ℝ) ≤ Real.sin (Real.pi / 36) ∧
      Real.sin (Real.pi / 36) ≤ (108945163 / 1250000000 : ℝ)) ∧
    ((1992389329 / 2000000000 : ℝ) ≤ Real.cos (Real.pi / 36) ∧
      Real.cos (Real.pi / 36) ≤ (9961947329 / 10 ^ 10 : ℝ)) := by
  have h := sin_cos_double_bounds sin_pi72_bounds.1 sin_pi72_bounds.2
    cos_pi72_bounds.1 cos_pi72_bounds.2 (by norm_num) (by norm_num)
  rw [show (2 : ℝ) * (Real.pi / 72) = Real.pi / 36 by ring] at h
  refine ⟨⟨le_trans (by norm_num) h.1.1, le_trans h.1.2 (by norm_num)⟩,
    le_trans (by norm_num) h.2.1, le_trans h.2.2 (by norm_num)⟩

/-- Rational bounds for `sin(π/18)` and `cos(π/18)`. -/
theorem sin_cos_pi18_bounds :
    ((1736473193 / 10 ^ 10 : ℝ) ≤ Real.sin (Real.pi / 18) ∧
      Real.sin (Real.pi / 18) ≤ (1736489561 / 10 ^ 10 : ℝ)) ∧
    ((4924038089 / 5000000000 : ℝ) ≤ Real.cos (Real.pi / 18) ∧
      Real.cos (Real.pi / 18) ≤ (4924039511 / 5000000000 : ℝ)) := by
  have h := sin_cos_double_bounds sin_cos_pi36_bounds.1.1
    sin_cos_pi36_bounds.1.2 sin_cos_pi36_bounds.2.1 sin_cos_pi36_bounds.2.2
    (by norm_num) (by norm_num)
  rw [show (2 : ℝ) * (Real.pi / 36) = Real.pi / 18 by ring] at h
  refine ⟨⟨le_trans (by norm_num) h.1.1, le_trans h.1.2 (by norm_num)⟩,
    le_trans (by norm_num) h.2.1, le_trans h.2.2 (by norm_num)⟩

/-- Rational bounds for `sin(π/9)` and `cos(π/9)`, i.e. for the grid angle
`20°`. -/
theorem sin_cos_pi9_bounds :
    ((3420184057 / 10 ^ 10 : ℝ) ≤ Real.sin (Real.pi / 9) ∧
      Real.sin (Real.pi / 9) ≤ (855054321 / 2500000000 : ℝ)) ∧
    ((11746151 / 12500000 : ℝ) ≤ Real.cos (Real.pi / 9) ∧
      Real.cos (Real.pi / 9) ≤ (939693217 / 10 ^ 9 : ℝ)) := by
  have h := sin_cos_double_bounds sin_cos_pi18_bounds.1.1
    sin_cos_pi18_bounds.1.2 sin_cos_pi18_bounds.2.1 sin_cos_pi18_bounds.2.2
    (by norm_num) (by norm_num)
  rw [show (2 : ℝ) * (Real.pi / 18) = Real.pi / 9 by ring] at h
  refine ⟨⟨le_trans (by norm_num) h.1.1, le_trans h.1.2 (by norm_num)⟩,
    le_trans (by norm_num) h.2.1, le_trans h.2.2 (by norm_num)⟩

end TrigBounds

section LadderCeilLemmas

variable [FloorRing K]

/-- Unfolding of `predictEmotion` on any nonempty candidate list. -/
theorem predictEmotion_of_ne_nil (q wSelf : List K) (candX : List (List K))
    (thetaCS : List (K × K)) (wGrid : List (List K)) (ti wi : ℕ)
    (x : List K) (hne : candX ≠ []) :
    Engine.predictEmotion q wSelf candX thetaCS wGrid ti wi x =
      utilityToEmotionCeil
        (Engine.utilityAt q wSelf (thetaCS.getD ti (0, 0)).1
          (thetaCS.getD ti (0, 0)).2 (wGrid.getD wi []) x)
        (Engine.UMAX q wSelf candX thetaCS wGrid ti wi) := by
  rcases candX with - | ⟨a, b⟩
  · exact absurd rfl hne
  · rw [predictEmotion_cons]

/-- Unfolding of `EmotionModel.utilityToEmotion` on any nonempty candidate
list. -/
theorem emotionModel_utilityToEmotion_of_ne_nil (q wSelf : List K)
    (candX : List (List K)) (c s : K) (xSelf wOther : List K)
    (hne : candX ≠ []) :
    EmotionModel.utilityToEmotion q wSelf candX c s xSelf wOther =
      emotionLadder 0 (EmotionModel.utility q wSelf c s xSelf wOther)
        (umax (fun x => EmotionModel.utility q wSelf c s x wOther) candX) := by
  rcases candX with - | ⟨a, b⟩
  · exact absurd rfl hne
  · rw [emotionModel_utilityToEmotion_cons]

/-- The ceil mapping yields `Neutral` whenever `|delta| ≤ 1e-3`. -/
theorem utilityToEmotionCeil_eq_zero {u maxU : K}
    (h : |u - (maxU - 7)| ≤ 1 / 1000) : utilityToEmotionCeil u maxU = 0 := by
  obtain ⟨h1, h2⟩ := abs_le.1 h
  unfold utilityToEmotionCeil
  rw [if_neg (by intro hc; linarith), if_pos h]

end LadderCeilLemmas

/-- `EmotionModel.utility` and the inline engine utility are the same
function (with the weight arguments swapped). -/
theorem emotionModel_utility_eq_utilityAt (q wSelf : List K) (c s : K)
    (wOther : List K) :
    (fun x => EmotionModel.utility q wSelf c s x wOther) =
      Engine.utilityAt q wSelf c s wOther := rfl

/-- The ladder mapping yields `Joy1` whenever `0 < delta ≤ 1`
(`NEUTRAL_EPSILON = 0`). -/
theorem emotionLadder_eq_one {u maxU : K} (h1 : 0 < u - (maxU - 7))
    (h2 : u - (maxU - 7) ≤ 1) : emotionLadder 0 u maxU = 1 := by
  unfold emotionLadder
  rw [if_neg (by intro h; linarith), if_neg ?_, if_pos (by linarith)]
  rw [abs_le]
  push_neg
  intro h
  linarith


/-- The `part_000` w-grid component values for the default configuration
`generateWGrid(-4, 4, 1)` evaluate to the nine integers from `-4` to `4`. -/
theorem wGridValues_default :
    wGridValues (-4) 4 1 = [-4, -3, -2, -1, 0, 1, 2, 3, 4] := by
  have harith : arithSeq (-4) 1 (1 / 1000) 4 =
      [-4, -3, -2, -1, 0, 1, 2, 3, 4] := by
    rw [arithSeq_eq_cons (by norm_num) (by norm_num),
      show ((-4 : ℚ) + 1) = -3 by norm_num]
    rw [arithSeq_eq_cons (by norm_num) (by norm_num),
      show ((-3 : ℚ) + 1) = -2 by norm_num]
    rw [arithSeq_eq_cons (by norm_num) (by norm_num),
      show ((-2 : ℚ) + 1) = -1 by norm_num]
    rw [arithSeq_eq_cons (by norm_num) (by norm_num),
      show ((-1 : ℚ) + 1) = 0 by norm_num]
    rw [arithSeq_eq_cons (by norm_num) (by norm_num),
      show ((0 : ℚ) + 1) = 1 by norm_num]
    rw [arithSeq_eq_cons (by norm_num) (by norm_num),
      show ((1 : ℚ) + 1) = 2 by norm_num]
    rw [arithSeq_eq_cons (by norm_num) (by norm_num),
      show ((2 : ℚ) + 1) = 3 by norm_num]
    rw [arithSeq_eq_cons (by norm_num) (by norm_num),
      show ((3 : ℚ) + 1) = 4 by norm_num]
    rw [arithSeq_eq_cons (by norm_num) (by norm_num),
      show ((4 : ℚ) + 1) = 5 by norm_num]
    rw [arithSeq_eq_nil (by norm_num)]
  rw [wGridValues, harith]
  norm_num [rnd2, jsRound]

/-- The ceil mapping in its joy branch. -/
theorem utilityToEmotionCeil_eq_joy {u maxU : K} [FloorRing K]
    (h : 1 / 1000 < u - (maxU - 7)) :
    utilityToEmotionCeil u maxU = min 7 ⌈u - (maxU - 7)⌉ := by
  unfold utilityToEmotionCeil
  rw [if_neg (by intro hc; linarith), if_neg ?_]
  rw [abs_le]
  push_neg
  intro hc
  linarith

/-- For a positive `delta`, the if-else ladder of
`EmotionModel.utilityToEmotion` computes exactly `min 7 ⌈delta⌉`. -/
theorem emotionLadder_eq_min_ceil {u maxU : K} [FloorRing K]
    (h0 : 0 < u - (maxU - 7)) :
    emotionLadder 0 u maxU = min 7 ⌈u - (maxU - 7)⌉ := by
  unfold emotionLadder
  rw [if_neg (by intro hc; linarith), if_neg ?_]
  pick_goal 2
  · rw [abs_le]
    push_neg
    intro hc
    linarith
  rcases le_or_lt u (maxU - 7 + 1) with h1 | h1
  · rw [if_pos h1]
    have hc : ⌈u - (maxU - 7)⌉ = 1 := by
      rw [Int.ceil_eq_iff]
      constructor
      · push_cast
        linarith
      · push_cast
        linarith
    rw [hc]
    norm_num
  rw [if_neg (not_le.2 h1)]
  rcases le_or_lt u (maxU - 7 + 2) with h2 | h2
  · rw [if_pos h2]
    have hc : ⌈u - (maxU - 7)⌉ = 2 := by
      rw [Int.ceil_eq_iff]
      constructor
      · push_cast
        linarith
      · push_cast
        linarith
    rw [hc]
    norm_num
  rw [if_neg (not_le.2 h2)]
  rcases le_or_lt u (maxU - 7 + 3) with h3 | h3
  · rw [if_pos h3]
    have hc : ⌈u - (maxU - 7)⌉ = 3 := by
      rw [Int.ceil_eq_iff]
      constructor
      · push_cast
        linarith
      · push_cast
        linarith
    rw [hc]
    norm_num
  rw [if_neg (not_le.2 h3)]
  rcases le_or_lt u (maxU - 7 + 4) with h4 | h4
  · rw [if_pos h4]
    have hc : ⌈u - (maxU - 7)⌉ = 4 := by
      rw [Int.ceil_eq_iff]
      constructor
      · push_cast
        linarith
      · push_cast
        linarith
    rw [hc]
    norm_num
  rw [if_neg (not_le.2 h4)]
  rcases le_or_lt u (maxU - 7 + 5) with h5 | h5
  · rw [if_pos h5]
    have hc : ⌈u - (maxU - 7)⌉ = 5 := by
      rw [Int.ceil_eq_iff]
      constructor
      · push_cast
        linarith
      · push_cast
        linarith
    rw [hc]
    norm_num
  rw [if_neg (not_le.2 h5)]
  rcases le_or_lt u (maxU - 7 + 6) with h6 | h6
  · rw [if_pos h6]
    have hc : ⌈u - (maxU - 7)⌉ = 6 := by
      rw [Int.ceil_eq_iff]
      constructor
      · push_cast
        linarith
      · push_cast
        linarith
    rw [hc]
    norm_num
  rw [if_neg (not_le.2 h6)]
  have hc : (6 : ℤ) < ⌈u - (maxU - 7)⌉ := by
    rw [Int.lt_ceil]
    push_cast
    linarith
  rw [min_eq_left (by omega)]

section Claims

open Engine

/-- C1: for every prior joint distribution over the hypothesis grid, every
offer `x` and every observed emotion label `e`, `update(e, x)` weights each
hypothesis `(ti, wi)` by `prior[ti][wi] * L` with `L = MATCH = 1 - 1e-9` when
that hypothesis's predicted emotion for `x` equals `e` and
`L = (1 - MATCH) / (numEmotionClasses - 1) = 1e-9 / 8` otherwise, and then
renormalizes: the stored posterior entry is `prior * L / Z` with `Z` the total
pre-normalization mass (linear domain, `part_000`); in the log domain
(`part_002`) the exponential of the stored entry is likewise
`exp(logPrior) * L / Z`. -/
theorem C1_update_is_prior_times_likelihood {K : Type*} [LinearOrderedField K]
    [FloorRing K] (q wSelf : List K) (candX : List (List K))
    (thetaCS : List (K × K)) (wGrid : List (List K)) (e : ℤ) (x : List K)
    (prior : ℕ → ℕ → K) {ti wi : ℕ} (hti : ti < thetaCS.length)
    (hwi : wi < wGrid.length)
    (hZ : 0 < (rawPosterior q wSelf candX thetaCS wGrid e x prior).flatten.sum)
    (logp : ℕ → ℝ) (pred : ℕ → ℤ) {n i : ℕ} (hi : i < n) :
    ((update q wSelf candX thetaCS wGrid e x prior).getD ti []).getD wi 0 =
      prior ti wi *
        likelihood (predictEmotion q wSelf candX thetaCS wGrid ti wi x) e /
        (rawPosterior q wSelf candX thetaCS wGrid e x prior).flatten.sum ∧
    (∀ p : ℤ, likelihood (K := K) p e =
      if p = e then 1 - 1 / 10 ^ 9 else (1 - (1 - 1 / 10 ^ 9)) / (9 - 1)) ∧
    Real.exp ((ThreeLog.updateWithLogLikelihood n logp
        (fun j => ThreeLog.logLikelihoodOf (pred j) e)).getD i 0) =
      Real.exp (logp i) * likelihood (K := ℝ) (pred i) e /
        ((List.range n).map
          (fun j : ℕ => Real.exp (logp j) * likelihood (K := ℝ) (pred j) e)).sum := by
  refine ⟨?_, ?_, ?_⟩
  · rw [update, normalize2D_of_pos (not_le.2 hZ)]
    conv_lhs => rw [rawPosterior, List.map_map]
    rw [getD_map_range _ hti]
    simp only [Function.comp_apply]
    rw [List.map_map, getD_map_range _ hwi]
    rfl
  · intro p
    unfold likelihood LIKELIHOOD_MATCH LIKELIHOOD_MISMATCH
    split
    · rfl
    · norm_num
  · have hn : n ≠ 0 := by omega
    have hLne : ((List.range n).map fun j : ℕ =>
        logp j + ThreeLog.logLikelihoodOf (pred j) e) ≠ [] := by
      simp [List.map_eq_nil_iff, List.range_eq_nil, hn]
    rw [ThreeLog.updateWithLogLikelihood, ThreeLog.normalizeLogPosterior,
      List.map_map, getD_map_range _ hi]
    simp only [Function.comp_apply]
    rw [Real.exp_sub, exp_logsumexp hLne, List.map_map]
    have hfn : ∀ j : ℕ, (Real.exp ∘ fun j : ℕ =>
        logp j + ThreeLog.logLikelihoodOf (pred j) e) j =
        Real.exp (logp j) * likelihood (K := ℝ) (pred j) e := by
      intro j
      simp only [Function.comp_apply, Real.exp_add, exp_logLikelihoodOf]
    rw [List.map_congr_left (fun j _ => hfn j), Real.exp_add, exp_logLikelihoodOf]

/-- Witness for C1 at a concrete configuration (single-cell grid over `ℚ`,
uniform prior; the log-domain part at a two-hypothesis table). -/
theorem C1_witness :
    ((0 : ℚ) <
      (rawPosterior ([7, 5, 5, 5] : List ℚ) ([2, -1, 0, 1] : List ℚ)
        ([[0, 0, 0, 0]] : List (List ℚ)) ([(1, 0)] : List (ℚ × ℚ))
        ([[1, 1, 1, 1]] : List (List ℚ)) 7 ([0, 0, 0, 0] : List ℚ)
        (fun _ _ => 1)).flatten.sum) ∧
    (((update ([7, 5, 5, 5] : List ℚ) ([2, -1, 0, 1] : List ℚ)
        ([[0, 0, 0, 0]] : List (List ℚ)) ([(1, 0)] : List (ℚ × ℚ))
        ([[1, 1, 1, 1]] : List (List ℚ)) 7 ([0, 0, 0, 0] : List ℚ)
        (fun _ _ => 1)).getD 0 []).getD 0 0 =
      (1 : ℚ) *
        likelihood (predictEmotion ([7, 5, 5, 5] : List ℚ) ([2, -1, 0, 1] : List ℚ)
          ([[0, 0, 0, 0]] : List (List ℚ)) ([(1, 0)] : List (ℚ × ℚ))
          ([[1, 1, 1, 1]] : List (List ℚ)) 0 0 ([0, 0, 0, 0] : List ℚ)) 7 /
        (rawPosterior ([7, 5, 5, 5] : List ℚ) ([2, -1, 0, 1] : List ℚ)
          ([[0, 0, 0, 0]] : List (List ℚ)) ([(1, 0)] : List (ℚ × ℚ))
          ([[1, 1, 1, 1]] : List (List ℚ)) 7 ([0, 0, 0, 0] : List ℚ)
          (fun _ _ => 1)).flatten.sum ∧
      (∀ p : ℤ, likelihood (K := ℚ) p 7 =
        if p = 7 then 1 - 1 / 10 ^ 9 else (1 - (1 - 1 / 10 ^ 9)) / (9 - 1)) ∧
      Real.exp ((ThreeLog.updateWithLogLikelihood 2 (fun _ => 0)
          (fun j => ThreeLog.logLikelihoodOf ((fun _ => (0 : ℤ)) j) 7)).getD 0 0) =
        Real.exp ((fun _ => (0 : ℝ)) 0) *
            likelihood (K := ℝ) ((fun _ => (0 : ℤ)) 0) 7 /
          ((List.range 2).map
            (fun j : ℕ => Real.exp ((fun _ => (0 : ℝ)) j) *
              likelihood (K := ℝ) ((fun _ => (0 : ℤ)) j) 7)).sum) := by
  have hpred : predictEmotion ([7, 5, 5, 5] : List ℚ) ([2, -1, 0, 1] : List ℚ)
      ([[0, 0, 0, 0]] : List (List ℚ)) ([(1, 0)] : List (ℚ × ℚ))
      ([[1, 1, 1, 1]] : List (List ℚ)) 0 0 ([0, 0, 0, 0] : List ℚ) = 7 := by
    rw [predictEmotion_cons]
    have hu : utilityAt ([7, 5, 5, 5] : List ℚ) ([2, -1, 0, 1] : List ℚ)
        ((([(1, 0)] : List (ℚ × ℚ)).getD 0 (0, 0)).1)
        ((([(1, 0)] : List (ℚ × ℚ)).getD 0 (0, 0)).2)
        (([[1, 1, 1, 1]] : List (List ℚ)).getD 0 []) ([0, 0, 0, 0] : List ℚ)
        = 22 := by
      norm_num [utilityAt, List.getD]
    have hm : UMAX ([7, 5, 5, 5] : List ℚ) ([2, -1, 0, 1] : List ℚ)
        ([[0, 0, 0, 0]] : List (List ℚ)) ([(1, 0)] : List (ℚ × ℚ))
        ([[1, 1, 1, 1]] : List (List ℚ)) 0 0 = 22 := by
      rw [UMAX, umax_singleton]
      norm_num [utilityAt, List.getD]
    rw [hu, hm, utilityToEmotionCeil]
    norm_num
  have hZ : (0 : ℚ) <
      (rawPosterior ([7, 5, 5, 5] : List ℚ) ([2, -1, 0, 1] : List ℚ)
        ([[0, 0, 0, 0]] : List (List ℚ)) ([(1, 0)] : List (ℚ × ℚ))
        ([[1, 1, 1, 1]] : List (List ℚ)) 7 ([0, 0, 0, 0] : List ℚ)
        (fun _ _ => 1)).flatten.sum := by
    rw [rawPosterior]
    norm_num [List.range_succ, hpred, likelihood, LIKELIHOOD_MATCH]
  refine ⟨hZ, ?_⟩
  exact @C1_update_is_prior_times_likelihood ℚ _ _ ([7, 5, 5, 5] : List ℚ)
    ([2, -1, 0, 1] : List ℚ) ([[0, 0, 0, 0]] : List (List ℚ))
    ([(1, 0)] : List (ℚ × ℚ)) ([[1, 1, 1, 1]] : List (List ℚ)) 7
    ([0, 0, 0, 0] : List ℚ) (fun _ _ => 1) 0 0 (by norm_num) (by norm_num) hZ
    (fun _ => 0) (fun _ => 0) 2 0 (by norm_num)

/-- Length of the flattened update table: `Nt * Nw`. -/
theorem flatten_length_range_matrix {α : Type*} (a b : ℕ) (f : ℕ → ℕ → α) :
    ((List.range a).map (fun i : ℕ => (List.range b).map (f i))).flatten.length
      = a * b := by
  rw [List.length_flatten, List.map_map]
  have h : ∀ i : ℕ, (List.length ∘ fun i : ℕ => (List.range b).map (f i)) i = b := by
    intro i
    simp
  rw [List.map_congr_left (fun i _ => h i)]
  induction a with
  | zero => simp
  | succ n ih =>
      rw [List.range_succ, List.map_append, List.sum_append]
      simp [ih]
      ring

/-- C2: after every call to `update()` the stored joint posterior sums to 1
(exactly, hence within the `1e-9` tolerance); when the pre-normalization sum
is `≤ 0`, every entry is set to the uniform value `1/(Nt*Nw)`; and in the log
domain the normalization subtracts `logsumexp` of all entries from each entry,
after which the exponentials of the stored entries sum to exactly 1. -/
theorem C2_posterior_sums_to_one {K : Type*} [LinearOrderedField K]
    [FloorRing K] (q wSelf : List K) (candX : List (List K))
    (thetaCS : List (K × K)) (wGrid : List (List K)) (e : ℤ) (x : List K)
    (prior : ℕ → ℕ → K) (hNt : thetaCS ≠ []) (hNw : wGrid ≠ []) :
    (update q wSelf candX thetaCS wGrid e x prior).flatten.sum = 1 ∧
    |(update q wSelf candX thetaCS wGrid e x prior).flatten.sum - 1| ≤ 1 / 10 ^ 9 ∧
    ((rawPosterior q wSelf candX thetaCS wGrid e x prior).flatten.sum ≤ 0 →
      update q wSelf candX thetaCS wGrid e x prior =
        (List.range thetaCS.length).map fun _ : ℕ =>
          (List.range wGrid.length).map fun _ : ℕ =>
            1 / ((thetaCS.length : K) * (wGrid.length : K))) ∧
    (∀ lp : List ℝ, lp ≠ [] →
      ThreeLog.normalizeLogPosterior lp =
        lp.map (fun v => v - ThreeLog.logsumexp lp) ∧
      ((ThreeLog.normalizeLogPosterior lp).map Real.exp).sum = 1) := by
  have hlen : (rawPosterior q wSelf candX thetaCS wGrid e x prior).flatten.length
      = thetaCS.length * wGrid.length := by
    rw [rawPosterior]
    exact flatten_length_range_matrix _ _ _
  have hne : (rawPosterior q wSelf candX thetaCS wGrid e x prior).flatten ≠ [] := by
    rw [← List.length_pos, hlen]
    exact Nat.mul_pos (List.length_pos.2 hNt) (List.length_pos.2 hNw)
  have hsum : (update q wSelf candX thetaCS wGrid e x prior).flatten.sum = 1 :=
    normalize2D_sum_one hne
  refine ⟨hsum, by rw [hsum]; norm_num, ?_, ?_⟩
  · intro hs
    rw [update, normalize2D_of_nonpos hs, hlen, rawPosterior, List.map_map]
    push_cast
    apply List.map_congr_left
    intro ti _
    simp [Function.comp_def, List.map_map]
  · intro lp hlp
    exact ⟨rfl, sumexp_normalizeLogPosterior hlp⟩

/-- Witness for C2 at a concrete single-cell configuration over `ℚ` and a
concrete nonempty log table. -/
theorem C2_witness :
    (([(1, 0)] : List (ℚ × ℚ)) ≠ [] ∧ ([[1, 1, 1, 1]] : List (List ℚ)) ≠ []) ∧
    ((update ([7, 5, 5, 5] : List ℚ) ([2, -1, 0, 1] : List ℚ)
        ([[0, 0, 0, 0]] : List (List ℚ)) ([(1, 0)] : List (ℚ × ℚ))
        ([[1, 1, 1, 1]] : List (List ℚ)) 7 ([0, 0, 0, 0] : List ℚ)
        (fun _ _ => 1)).flatten.sum = 1 ∧
      |(update ([7, 5, 5, 5] : List ℚ) ([2, -1, 0, 1] : List ℚ)
        ([[0, 0, 0, 0]] : List (List ℚ)) ([(1, 0)] : List (ℚ × ℚ))
        ([[1, 1, 1, 1]] : List (List ℚ)) 7 ([0, 0, 0, 0] : List ℚ)
        (fun _ _ => 1)).flatten.sum - 1| ≤ 1 / 10 ^ 9 ∧
      ((rawPosterior ([7, 5, 5, 5] : List ℚ) ([2, -1, 0, 1] : List ℚ)
          ([[0, 0, 0, 0]] : List (List ℚ)) ([(1, 0)] : List (ℚ × ℚ))
          ([[1, 1, 1, 1]] : List (List ℚ)) 7 ([0, 0, 0, 0] : List ℚ)
          (fun _ _ => 1)).flatten.sum ≤ 0 →
        update ([7, 5, 5, 5] : List ℚ) ([2, -1, 0, 1] : List ℚ)
          ([[0, 0, 0, 0]] : List (List ℚ)) ([(1, 0)] : List (ℚ × ℚ))
          ([[1, 1, 1, 1]] : List (List ℚ)) 7 ([0, 0, 0, 0] : List ℚ)
          (fun _ _ => 1) =
          (List.range (([(1, 0)] : List (ℚ × ℚ)).length)).map fun _ : ℕ =>
            (List.range (([[1, 1, 1, 1]] : List (List ℚ)).length)).map fun _ : ℕ =>
              1 / (((([(1, 0)] : List (ℚ × ℚ)).length : ℚ)) *
                ((([[1, 1, 1, 1]] : List (List ℚ)).length : ℚ)))) ∧
      (∀ lp : List ℝ, lp ≠ [] →
        ThreeLog.normalizeLogPosterior lp =
          lp.map (fun v => v - ThreeLog.logsumexp lp) ∧
        ((ThreeLog.normalizeLogPosterior lp).map Real.exp).sum = 1)) :=
  ⟨⟨List.cons_ne_nil _ _, List.cons_ne_nil _ _⟩,
    C2_posterior_sums_to_one _ _ _ _ _ 7 _ _
      (List.cons_ne_nil _ _) (List.cons_ne_nil _ _)⟩

/-- Range of the ceil-based emotion mapping. -/
theorem utilityToEmotionCeil_range {K : Type*} [LinearOrderedField K]
    [FloorRing K] (u maxU : K) :
    -1 ≤ utilityToEmotionCeil u maxU ∧ utilityToEmotionCeil u maxU ≤ 7 := by
  unfold utilityToEmotionCeil
  split_ifs with h1 h2
  · exact ⟨le_refl _, by norm_num⟩
  · exact ⟨by norm_num, by norm_num⟩
  · constructor
    · have hd : (0 : K) < u - (maxU - 7) := by
        have h1a := not_lt.1 h1
        have h2a := not_le.1 h2
        rcases le_or_lt (u - (maxU - 7)) 0 with hle | hlt
        · rw [abs_of_nonpos hle] at h2a
          linarith
        · exact hlt
      have hc : (1 : ℤ) ≤ ⌈u - (maxU - 7)⌉ := by
        exact_mod_cast Int.ceil_pos.2 hd
      have : (1 : ℤ) ≤ min 7 ⌈u - (maxU - 7)⌉ := le_min (by norm_num) hc
      linarith
    · exact min_le_left _ _

/-- Range of the predicted emotion label for any hypothesis and offer. -/
theorem predictEmotion_range {K : Type*} [LinearOrderedField K] [FloorRing K]
    (q wSelf : List K) (candX : List (List K)) (thetaCS : List (K × K))
    (wGrid : List (List K)) (ti wi : ℕ) (x : List K) :
    -1 ≤ predictEmotion q wSelf candX thetaCS wGrid ti wi x ∧
      predictEmotion q wSelf candX thetaCS wGrid ti wi x ≤ 7 := by
  match candX with
  | [] => rw [predictEmotion_nil]; exact ⟨by norm_num, by norm_num⟩
  | x0 :: rest =>
      rw [predictEmotion_cons]
      exact utilityToEmotionCeil_range _ _

/-- C3: in the max-anchored scheme, with `limit = UMAX - EmotionMax` and
`delta = utility - limit`, the label is `-1` when `delta < -eps`, `0` when
`|delta| ≤ eps` (`eps = 1e-3`), and `min(EmotionMax, ceil(delta))` otherwise;
consequently every predicted emotion label lies in `[-1, 7]`. -/
theorem C3_max_anchored_emotion {K : Type*} [LinearOrderedField K]
    [FloorRing K] (u maxU : K) (q wSelf : List K) (candX : List (List K))
    (thetaCS : List (K × K)) (wGrid : List (List K)) (ti wi : ℕ)
    (x : List K) :
    (u - (maxU - 7) < -(1 / 1000) → utilityToEmotionCeil u maxU = -1) ∧
    (|u - (maxU - 7)| ≤ 1 / 1000 → utilityToEmotionCeil u maxU = 0) ∧
    (1 / 1000 < u - (maxU - 7) →
      utilityToEmotionCeil u maxU = min 7 ⌈u - (maxU - 7)⌉) ∧
    (-1 ≤ predictEmotion q wSelf candX thetaCS wGrid ti wi x ∧
      predictEmotion q wSelf candX thetaCS wGrid ti wi x ≤ 7) := by
  refine ⟨?_, ?_, ?_, predictEmotion_range q wSelf candX thetaCS wGrid ti wi x⟩
  · intro h
    unfold utilityToEmotionCeil
    rw [if_pos h]
  · intro h
    unfold utilityToEmotionCeil
    rw [if_neg (by rcases abs_le.1 h with ⟨h1, -⟩; intro hc; linarith), if_pos h]
  · intro h
    unfold utilityToEmotionCeil
    rw [if_neg (by intro hc; linarith), if_neg (by rw [abs_le]; push_neg; intro hc; linarith)]

/-- Witness for C3: the joy branch at `u = maxU = 22` (so `delta = 7`) over
`ℚ`, exercising the third implication of the claim theorem. -/
theorem C3_witness :
    ((1 : ℚ) / 1000 < (22 : ℚ) - (22 - 7)) ∧
    utilityToEmotionCeil (22 : ℚ) 22 = min 7 ⌈(22 : ℚ) - (22 - 7)⌉ :=
  ⟨by norm_num,
    (C3_max_anchored_emotion (22 : ℚ) 22 [] [] [] [] [] 0 0 []).2.2.1
      (by norm_num)⟩

/-- C4: the counterpart utility equals
`cos(θ) * (wOther . (Q - x)) + sin(θ) * (wSelf . x)` (with `c = cos θ`,
`s = sin θ`), and this same formula is evaluated both when predicting under a
grid hypothesis (`predictEmotion` / `_predictEmotionFast`) and when
simulating the true counterpart (`computeTrueEmotion`). -/
theorem C4_utility_formula {K : Type*} [LinearOrderedField K] [FloorRing K]
    (q wSelf : List K) (c s : K) (x wOther : List K)
    (candX : List (List K)) (thetaCS : List (K × K)) (wGrid : List (List K))
    (ti wi : ℕ) (cT sT : K) (trueW : List K) :
    EmotionModel.utility q wSelf c s x wOther =
      c * dot wOther (subtractArrays q x) + s * dot wSelf x ∧
    Engine.utilityAt q wSelf c s wOther x =
      c * dot wOther (subtractArrays q x) + s * dot wSelf x ∧
    (candX ≠ [] →
      Engine.predictEmotion q wSelf candX thetaCS wGrid ti wi x =
        utilityToEmotionCeil
          (Engine.utilityAt q wSelf (thetaCS.getD ti (0, 0)).1
            (thetaCS.getD ti (0, 0)).2 (wGrid.getD wi []) x)
          (Engine.UMAX q wSelf candX thetaCS wGrid ti wi)) ∧
    (candX ≠ [] →
      Engine.computeTrueEmotion q wSelf candX cT sT trueW x =
        utilityToEmotionCeil (Engine.utilityAt q wSelf cT sT trueW x)
          (umax (Engine.utilityAt q wSelf cT sT trueW) candX)) := by
  refine ⟨rfl, rfl, ?_, ?_⟩
  · intro hne
    rcases candX with - | ⟨x0, rest⟩
    · exact absurd rfl hne
    · rw [predictEmotion_cons]
  · intro hne
    rcases candX with - | ⟨x0, rest⟩
    · exact absurd rfl hne
    · rw [computeTrueEmotion_cons]

/-- Witness for C4 at a concrete nonempty candidate list over `ℚ`. -/
theorem C4_witness :
    (([[0, 0, 0, 0]] : List (List ℚ)) ≠ []) ∧
    Engine.computeTrueEmotion ([7, 5, 5, 5] : List ℚ) ([2, -1, 0, 1] : List ℚ)
        ([[0, 0, 0, 0]] : List (List ℚ)) 1 0 ([1, 1, 1, 1] : List ℚ)
        ([0, 0, 0, 0] : List ℚ) =
      utilityToEmotionCeil
        (Engine.utilityAt ([7, 5, 5, 5] : List ℚ) ([2, -1, 0, 1] : List ℚ) 1 0
          ([1, 1, 1, 1] : List ℚ) ([0, 0, 0, 0] : List ℚ))
        (umax
          (Engine.utilityAt ([7, 5, 5, 5] : List ℚ) ([2, -1, 0, 1] : List ℚ) 1 0
            ([1, 1, 1, 1] : List ℚ))
          ([[0, 0, 0, 0]] : List (List ℚ))) :=
  ⟨List.cons_ne_nil _ _,
    (C4_utility_formula ([7, 5, 5, 5] : List ℚ) ([2, -1, 0, 1] : List ℚ) 1 0
        ([0, 0, 0, 0] : List ℚ) ([1, 1, 1, 1] : List ℚ)
        ([[0, 0, 0, 0]] : List (List ℚ)) [] [] 0 0 1 0
        ([1, 1, 1, 1] : List ℚ)).2.2.2 (List.cons_ne_nil _ _)⟩

/-- C5: for every hypothesis `(ti, wi)`, the cached `UMAX[ti][wi]` is an
upper bound of the utility over every enumerated candidate offer and is
attained by one of them, i.e. it equals the maximum of the utility over the
candidate set. -/
theorem C5_umax_is_maximum {K : Type*} [LinearOrderedField K]
    (q wSelf : List K) (candX : List (List K)) (thetaCS : List (K × K))
    (wGrid : List (List K)) (ti wi : ℕ) (hne : candX ≠ []) :
    (∀ x ∈ candX,
      Engine.utilityAt q wSelf (thetaCS.getD ti (0, 0)).1
          (thetaCS.getD ti (0, 0)).2 (wGrid.getD wi []) x ≤
        Engine.UMAX q wSelf candX thetaCS wGrid ti wi) ∧
    ∃ x ∈ candX,
      Engine.UMAX q wSelf candX thetaCS wGrid ti wi =
        Engine.utilityAt q wSelf (thetaCS.getD ti (0, 0)).1
          (thetaCS.getD ti (0, 0)).2 (wGrid.getD wi []) x :=
  umax_spec
    (Engine.utilityAt q wSelf (thetaCS.getD ti (0, 0)).1
      (thetaCS.getD ti (0, 0)).2 (wGrid.getD wi []))
    candX hne

/-- Witness for C5 at a concrete single-candidate configuration over `ℚ`. -/
theorem C5_witness :
    (([[0, 0, 0, 0]] : List (List ℚ)) ≠ []) ∧
    ((∀ x ∈ ([[0, 0, 0, 0]] : List (List ℚ)),
      Engine.utilityAt ([7, 5, 5, 5] : List ℚ) ([2, -1, 0, 1] : List ℚ)
          ((([(1, 0)] : List (ℚ × ℚ)).getD 0 (0, 0)).1)
          ((([(1, 0)] : List (ℚ × ℚ)).getD 0 (0, 0)).2)
          (([[1, 1, 1, 1]] : List (List ℚ)).getD 0 []) x ≤
        Engine.UMAX ([7, 5, 5, 5] : List ℚ) ([2, -1, 0, 1] : List ℚ)
          ([[0, 0, 0, 0]] : List (List ℚ)) ([(1, 0)] : List (ℚ × ℚ))
          ([[1, 1, 1, 1]] : List (List ℚ)) 0 0) ∧
    ∃ x ∈ ([[0, 0, 0, 0]] : List (List ℚ)),
      Engine.UMAX ([7, 5, 5, 5] : List ℚ) ([2, -1, 0, 1] : List ℚ)
          ([[0, 0, 0, 0]] : List (List ℚ)) ([(1, 0)] : List (ℚ × ℚ))
          ([[1, 1, 1, 1]] : List (List ℚ)) 0 0 =
        Engine.utilityAt ([7, 5, 5, 5] : List ℚ) ([2, -1, 0, 1] : List ℚ)
          ((([(1, 0)] : List (ℚ × ℚ)).getD 0 (0, 0)).1)
          ((([(1, 0)] : List (ℚ × ℚ)).getD 0 (0, 0)).2)
          (([[1, 1, 1, 1]] : List (List ℚ)).getD 0 []) x) :=
  ⟨List.cons_ne_nil _ _,
    C5_umax_is_maximum ([7, 5, 5, 5] : List ℚ) ([2, -1, 0, 1] : List ℚ)
      ([[0, 0, 0, 0]] : List (List ℚ)) ([(1, 0)] : List (ℚ × ℚ))
      ([[1, 1, 1, 1]] : List (List ℚ)) 0 0 (List.cons_ne_nil _ _)⟩

/-- C6: for every hypothesis `(θ, w)` (with `cs = cos θ`, `ss = sin θ`) and
every quantity vector, the brute-force maximum of the utility over the full
offer enumeration equals the closed-form vertex maximum; in particular the
cached `UMAX` entry of any hypothesis equals the fast vertex value. -/
theorem C6_vertex_equals_bruteforce {K : Type*} [LinearOrderedField K]
    (cs ss w0 w1 w2 w3 ws0 ws1 ws2 ws3 : K) (q0 q1 q2 q3 : ℕ)
    (thetaCS : List (K × K)) (wGrid : List (List K)) (ti wi : ℕ)
    (hcs : thetaCS.getD ti (0, 0) = (cs, ss))
    (hw : wGrid.getD wi [] = [w0, w1, w2, w3]) :
    umax
        (Engine.utilityAt [(q0 : K), (q1 : K), (q2 : K), (q3 : K)]
          [ws0, ws1, ws2, ws3] cs ss [w0, w1, w2, w3])
        (generateAllOffers q0 q1 q2 q3) =
      fastMax4 cs ss w0 w1 w2 w3 ws0 ws1 ws2 ws3 q0 q1 q2 q3 ∧
    Engine.UMAX [(q0 : K), (q1 : K), (q2 : K), (q3 : K)] [ws0, ws1, ws2, ws3]
        (generateAllOffers q0 q1 q2 q3) thetaCS wGrid ti wi =
      fastMax4 cs ss w0 w1 w2 w3 ws0 ws1 ws2 ws3 q0 q1 q2 q3 := by
  constructor
  · exact umax_generateAllOffers_eq_vertex cs ss w0 w1 w2 w3 ws0 ws1 ws2 ws3
      q0 q1 q2 q3
  · rw [Engine.UMAX, hcs, hw]
    exact umax_generateAllOffers_eq_vertex cs ss w0 w1 w2 w3 ws0 ws1 ws2 ws3
      q0 q1 q2 q3

/-- Witness for C6 at a concrete hypothesis over `ℚ`. -/
theorem C6_witness :
    ((([((3 : ℚ), (4 : ℚ))] : List (ℚ × ℚ)).getD 0 (0, 0) = (3, 4) ∧
      ([[1, -1, 2, 2]] : List (List ℚ)).getD 0 [] = [1, -1, 2, 2]) ∧
    umax
        (Engine.utilityAt [(7 : ℚ), 5, 5, 5] [2, -1, 0, 1] 3 4 [1, -1, 2, 2])
        (generateAllOffers 7 5 5 5) =
      fastMax4 (3 : ℚ) 4 1 (-1) 2 2 2 (-1) 0 1 7 5 5 5) :=
  ⟨⟨rfl, rfl⟩,
    (C6_vertex_equals_bruteforce (3 : ℚ) 4 1 (-1) 2 2 2 (-1) 0 1 7 5 5 5
      ([((3 : ℚ), (4 : ℚ))]) ([[1, -1, 2, 2]]) 0 0 rfl rfl).1⟩

/-- The default 3-issue w-component grid `range(-4, 4, 1)` evaluates to the
nine integers from `-4` to `4`. -/
theorem rangeJS_default :
    rangeJS (-4) 4 1 = [-4, -3, -2, -1, 0, 1, 2, 3, 4] := by
  have harith : arithSeq (-4) 1 (1 / 10 ^ 9) 4 =
      [-4, -3, -2, -1, 0, 1, 2, 3, 4] := by
    rw [arithSeq_eq_cons (by norm_num) (by norm_num),
      show ((-4 : ℚ) + 1) = -3 by norm_num]
    rw [arithSeq_eq_cons (by norm_num) (by norm_num),
      show ((-3 : ℚ) + 1) = -2 by norm_num]
    rw [arithSeq_eq_cons (by norm_num) (by norm_num),
      show ((-2 : ℚ) + 1) = -1 by norm_num]
    rw [arithSeq_eq_cons (by norm_num) (by norm_num),
      show ((-1 : ℚ) + 1) = 0 by norm_num]
    rw [arithSeq_eq_cons (by norm_num) (by norm_num),
      show ((0 : ℚ) + 1) = 1 by norm_num]
    rw [arithSeq_eq_cons (by norm_num) (by norm_num),
      show ((1 : ℚ) + 1) = 2 by norm_num]
    rw [arithSeq_eq_cons (by norm_num) (by norm_num),
      show ((2 : ℚ) + 1) = 3 by norm_num]
    rw [arithSeq_eq_cons (by norm_num) (by norm_num),
      show ((3 : ℚ) + 1) = 4 by norm_num]
    rw [arithSeq_eq_cons (by norm_num) (by norm_num),
      show ((4 : ℚ) + 1) = 5 by norm_num]
    rw [arithSeq_eq_nil (by norm_num)]
  rw [rangeJS, harith]
  norm_num [rnd3, jsRound]

/-- C7: in the fixed-scale scheme the emotion label equals
`clip(floor(combined / scale), -1, 7)` with
`combined = (wSelf . offer) + cos θ * (wOther . (Q - offer))` and
`scale = (largest absolute w-grid value + largest absolute wSelf component)
* ΣQ_i / EmotionMax`; for the default grid `range(-4, 4, 1)` the largest
absolute grid value is indeed `max(W_GRID_MAX, |W_GRID_MIN|) = 4` as the
code computes it. -/
theorem C7_fixed_scale_emotion {K : Type*} [LinearOrderedField K]
    [FloorRing K] (wGridMin wGridMax : K) (wSelf q : List K) (cosTheta : K)
    (offer wOther : List K) :
    ThreeLog.computeTrueEmotion wGridMin wGridMax wSelf q cosTheta offer
        wOther =
      max (-1) (min 7
        ⌊(dot wSelf offer + cosTheta * dot wOther (subtractArrays q offer)) /
          ((max wGridMax |wGridMin| + ThreeLog.selfAbsMax wSelf) * q.sum /
            7)⌋) ∧
    (∀ v ∈ rangeJS (-4) 4 1, |v| ≤ max (4 : ℚ) |(-4 : ℚ)|) ∧
    (4 : ℚ) ∈ rangeJS (-4) 4 1 ∧ |(4 : ℚ)| = max (4 : ℚ) |(-4 : ℚ)| := by
  refine ⟨?_, ?_, ?_, by norm_num⟩
  · rw [ThreeLog.computeTrueEmotion, ThreeLog.utility, ThreeLog.utility,
      ThreeLog.computeScale, dot_comm offer wSelf,
      dot_comm (subtractArrays q offer) wOther]
  · intro v hv
    rw [rangeJS_default] at hv
    fin_cases hv <;> norm_num
  · rw [rangeJS_default]
    norm_num

/-- Witness for C7: even though the claim theorem's only arrow is the
universally quantified membership bound, we exercise it at a concrete grid
value. -/
theorem C7_witness :
    ((-3 : ℚ) ∈ rangeJS (-4) 4 1) ∧ |(-3 : ℚ)| ≤ max (4 : ℚ) |(-4 : ℚ)| :=
  ⟨by rw [rangeJS_default]; norm_num,
    (C7_fixed_scale_emotion (0 : ℚ) 0 [] [] 0 [] []).2.1 (-3)
      (by rw [rangeJS_default]; norm_num)⟩

/-- The loop start value is always in the sequence when the loop runs at
all. -/
theorem arithSeq_start_mem {tmin tstep slack tmax : ℚ} (hstep : 0 < tstep)
    (hle : tmin ≤ tmax + slack) : tmin ∈ arithSeq tmin tstep slack tmax := by
  refine (mem_arithSeq hstep).2 ⟨0, ?_, by push_cast; ring⟩
  apply Int.floor_nonneg.2
  apply div_nonneg _ hstep.le
  linarith

/-- When the range is an exact whole number of steps, the upper bound is in
the sequence. -/
theorem arithSeq_stop_mem {tmin tstep slack tmax : ℚ} (hstep : 0 < tstep)
    (hslack : 0 < slack) (k : ℕ) (hmax : tmax = tmin + k * tstep) :
    tmax ∈ arithSeq tmin tstep slack tmax := by
  refine (mem_arithSeq hstep).2 ⟨k, ?_, by rw [hmax]⟩
  apply Int.le_floor.2
  rw [hmax]
  have h1 : (tmin + k * tstep + slack - tmin) / tstep = k + slack / tstep := by
    field_simp
    ring
  rw [h1]
  push_cast
  have := div_pos hslack hstep
  linarith

/-- C8 counterexample: with `θ_min = 0`, `θ_max = 1`, `θ_step = 0.4` (a range
that is not a whole multiple of the step), the configured upper endpoint `1`
is absent from the produced grid — for the `part_000` θ-grid loop (degree
level) and for the `part_002` `range` helper alike.  The grids evaluate to
`(0, 0.4, 0.8)`. -/
theorem C8_counterexample :
    generateThetaGridDeg 0 1 (2 / 5) = [0, 2 / 5, 4 / 5] ∧
    (1 : ℚ) ∉ generateThetaGridDeg 0 1 (2 / 5) ∧
    rangeJS 0 1 (2 / 5) = [0, 2 / 5, 4 / 5] ∧
    (1 : ℚ) ∉ rangeJS 0 1 (2 / 5) := by
  have h1 : arithSeq 0 (2 / 5) (1 / 1000) 1 = [0, 2 / 5, 4 / 5] := by
    rw [arithSeq_eq_cons (by norm_num) (by norm_num),
      show ((0 : ℚ) + 2 / 5) = 2 / 5 by norm_num]
    rw [arithSeq_eq_cons (by norm_num) (by norm_num),
      show ((2 : ℚ) / 5 + 2 / 5) = 4 / 5 by norm_num]
    rw [arithSeq_eq_cons (by norm_num) (by norm_num),
      show ((4 : ℚ) / 5 + 2 / 5) = 6 / 5 by norm_num]
    rw [arithSeq_eq_nil (by norm_num)]
  have h2 : arithSeq 0 (2 / 5) (1 / 10 ^ 9) 1 = [0, 2 / 5, 4 / 5] := by
    rw [arithSeq_eq_cons (by norm_num) (by norm_num),
      show ((0 : ℚ) + 2 / 5) = 2 / 5 by norm_num]
    rw [arithSeq_eq_cons (by norm_num) (by norm_num),
      show ((2 : ℚ) / 5 + 2 / 5) = 4 / 5 by norm_num]
    rw [arithSeq_eq_cons (by norm_num) (by norm_num),
      show ((4 : ℚ) / 5 + 2 / 5) = 6 / 5 by norm_num]
    rw [arithSeq_eq_nil (by norm_num)]
  have hg : generateThetaGridDeg 0 1 (2 / 5) = [0, 2 / 5, 4 / 5] := by
    rw [generateThetaGridDeg, h1]
  have hr : rangeJS 0 1 (2 / 5) = [0, 2 / 5, 4 / 5] := by
    rw [rangeJS, h2]
    norm_num [rnd3, jsRound]
  refine ⟨hg, ?_, hr, ?_⟩
  · rw [hg]
    norm_num
  · rw [hr]
    norm_num

/-- C8 (amended): when the configured range is a whole number of steps
(`θ_max = θ_min + k * θ_step`, `θ_step > 0`) — as with the defaults
`(-90, 90, 5)` — both configured endpoints are present exactly in the
produced grid; additionally, for `range` both endpoints are present provided
they are fixed by the 3-decimal rounding; and with the defaults the grids
contain exactly 37 values including `-90` and `90`. -/
theorem C8_theta_grid_endpoints (tmin tmax tstep : ℚ) (k : ℕ)
    (hstep : 0 < tstep) (hmax : tmax = tmin + k * tstep) :
    tmin ∈ generateThetaGridDeg tmin tmax tstep ∧
    tmax ∈ generateThetaGridDeg tmin tmax tstep ∧
    (rnd3 tmin = tmin → tmin ∈ rangeJS tmin tmax tstep) ∧
    (rnd3 tmax = tmax → tmax ∈ rangeJS tmin tmax tstep) ∧
    (generateThetaGridDeg (-90) 90 5).length = 37 ∧
    (-90 : ℚ) ∈ generateThetaGridDeg (-90) 90 5 ∧
    (90 : ℚ) ∈ generateThetaGridDeg (-90) 90 5 ∧
    (rangeJS (-90) 90 5).length = 37 ∧
    (-90 : ℚ) ∈ rangeJS (-90) 90 5 ∧ (90 : ℚ) ∈ rangeJS (-90) 90 5 := by
  have hk0 : (0 : ℚ) ≤ (k : ℚ) * tstep := by positivity
  refine ⟨arithSeq_start_mem hstep (by rw [hmax]; linarith),
    arithSeq_stop_mem hstep (by norm_num) k hmax, ?_, ?_, ?_, ?_, ?_, ?_, ?_, ?_⟩
  · intro hfix
    rw [rangeJS]
    exact List.mem_map.2 ⟨tmin,
      arithSeq_start_mem hstep (by rw [hmax]; linarith), hfix⟩
  · intro hfix
    rw [rangeJS]
    exact List.mem_map.2 ⟨tmax, arithSeq_stop_mem hstep (by norm_num) k hmax,
      hfix⟩
  · rw [generateThetaGridDeg, arithSeq, if_pos (by norm_num)]
    rw [List.length_map, List.length_range]
    norm_num
    decide
  · exact arithSeq_start_mem (by norm_num) (by norm_num)
  · exact arithSeq_stop_mem (by norm_num) (by norm_num) 36 (by norm_num)
  · rw [rangeJS, List.length_map, arithSeq, if_pos (by norm_num),
      List.length_map, List.length_range]
    norm_num
    decide
  · rw [rangeJS]
    exact List.mem_map.2 ⟨-90,
      arithSeq_start_mem (by norm_num) (by norm_num),
      by norm_num [rnd3, jsRound]⟩
  · rw [rangeJS]
    exact List.mem_map.2 ⟨90,
      arithSeq_stop_mem (by norm_num) (by norm_num) 36 (by norm_num),
      by norm_num [rnd3, jsRound]⟩

/-- Witness for C8 (amended) at the default configuration. -/
theorem C8_witness :
    ((0 : ℚ) < 5 ∧ (90 : ℚ) = -90 + (36 : ℕ) * 5) ∧
    ((-90 : ℚ) ∈ generateThetaGridDeg (-90) 90 5 ∧
      (90 : ℚ) ∈ generateThetaGridDeg (-90) 90 5) :=
  ⟨⟨by norm_num, by norm_num⟩,
    ⟨(C8_theta_grid_endpoints (-90) 90 5 36 (by norm_num) (by norm_num)).1,
      (C8_theta_grid_endpoints (-90) 90 5 36 (by norm_num)
        (by norm_num)).2.1⟩⟩

/-- C9 counterexample: `applyOffer` does not reject invalid offers.  With
`Q = [7,5,5,5]`, the offer `[8,0,0,0]` has a component exceeding `Q_0 = 7`
(so it is invalid per the specification), yet `applyOffer` processes it: the
round counter is incremented and the history is extended, on a concrete game
state over `ℚ`. -/
theorem C9_counterexample :
    ¬ validOffer ([7, 5, 5, 5] : List ℚ) [8, 0, 0, 0] ∧
    (applyOffer ([7, 5, 5, 5] : List ℚ) ([2, -1, 0, 1] : List ℚ)
        ([[0, 0, 0, 0]] : List (List ℚ)) ([(1, 0)] : List (ℚ × ℚ))
        ([[1, 1, 1, 1]] : List (List ℚ)) 1 0 ([1, 1, 1, 1] : List ℚ)
        ⟨0, [], [[1]]⟩ [8, 0, 0, 0]).round = 1 ∧
    (applyOffer ([7, 5, 5, 5] : List ℚ) ([2, -1, 0, 1] : List ℚ)
        ([[0, 0, 0, 0]] : List (List ℚ)) ([(1, 0)] : List (ℚ × ℚ))
        ([[1, 1, 1, 1]] : List (List ℚ)) 1 0 ([1, 1, 1, 1] : List ℚ)
        ⟨0, [], [[1]]⟩ [8, 0, 0, 0]).history ≠ [] := by
  refine ⟨?_, rfl, ?_⟩
  · rintro ⟨-, h⟩
    have h0 := h 0 (by norm_num)
    norm_num at h0
  · simp [applyOffer]

/-- C9 (amended): `applyOffer` performs no offer validation at all.  For
every offer — in particular out-of-range or mis-dimensioned ones — it
computes the true counterpart's emotion, runs the Bayesian update on the
stored distribution, increments the round counter and appends to the
history; nothing is rejected or clamped and no error path exists. -/
theorem C9_applyOffer_never_rejects {K : Type*} [LinearOrderedField K]
    [FloorRing K] (q wSelf : List K) (candX : List (List K))
    (thetaCS : List (K × K)) (wGrid : List (List K)) (cT sT : K)
    (trueW : List K) (g : GameState K) (x : List K) :
    (applyOffer q wSelf candX thetaCS wGrid cT sT trueW g x).round =
      g.round + 1 ∧
    (applyOffer q wSelf candX thetaCS wGrid cT sT trueW g x).history =
      g.history ++
        [(g.round + 1, x, Engine.computeTrueEmotion q wSelf candX cT sT trueW x)] ∧
    (applyOffer q wSelf candX thetaCS wGrid cT sT trueW g x).distribution =
      Engine.update q wSelf candX thetaCS wGrid
        (Engine.computeTrueEmotion q wSelf candX cT sT trueW x) x
        (fun ti wi => (g.distribution.getD ti []).getD wi 0) :=
  ⟨rfl, rfl, rfl⟩

/-- C10 counterexample: at the grid hypothesis `θ = 20°` (a θ-grid point,
with `degToRad(20) = π/9`), `w = [1, -1, 2, 2]` (a w-grid point) and the
in-range offer `x = [7, 2, 1, 1]` for `Q = [7, 5, 5, 5]`,
`wSelf = [2, -1, 0, 1]`, the observation generator
`EmotionModel.utilityToEmotion` (ladder, `NEUTRAL_EPSILON = 0`) returns
`Joy1` while the inference-time predictor `_predictEmotionFast` (ceil,
tolerance `1e-3`) returns `Neutral`: here
`delta = 7 - 14 cos(π/9) + 18 sin(π/9) ≈ 6.6e-4` lies strictly inside the
punctured band `(0, 1e-3]` where the two mappings disagree. -/
theorem C10_counterexample :
    (20 : ℚ) ∈ generateThetaGridDeg (-90) 90 5 ∧
    ([1, -1, 2, 2] : List ℚ) ∈ generateWGrid (-4) 4 1 ∧
    validOffer ([7, 5, 5, 5] : List ℝ) [7, 2, 1, 1] ∧
    (20 : ℝ) * Real.pi / 180 = Real.pi / 9 ∧
    EmotionModel.utilityToEmotion ([7, 5, 5, 5] : List ℝ) [2, -1, 0, 1]
        (generateAllOffers 7 5 5 5) (Real.cos (Real.pi / 9))
        (Real.sin (Real.pi / 9)) [7, 2, 1, 1] [1, -1, 2, 2] = 1 ∧
    Engine.predictEmotion ([7, 5, 5, 5] : List ℝ) [2, -1, 0, 1]
        (generateAllOffers 7 5 5 5)
        [(Real.cos (Real.pi / 9), Real.sin (Real.pi / 9))] [[1, -1, 2, 2]]
        0 0 [7, 2, 1, 1] = 0 := by
  obtain ⟨⟨hs1, hs2⟩, hc1, hc2⟩ := sin_cos_pi9_bounds
  have hne : generateAllOffers (K := ℝ) 7 5 5 5 ≠ [] :=
    generateAllOffers_ne_nil 7 5 5 5
  have hqcast : ([((7 : ℕ) : ℝ), ((5 : ℕ) : ℝ), ((5 : ℕ) : ℝ),
      ((5 : ℕ) : ℝ)]) = ([7, 5, 5, 5] : List ℝ) := by norm_num
  have hvertex := umax_generateAllOffers_eq_vertex (Real.cos (Real.pi / 9))
    (Real.sin (Real.pi / 9)) 1 (-1) 2 2 2 (-1) 0 1 7 5 5 5
  rw [hqcast] at hvertex
  push_cast at hvertex
  have hm0 : max (Real.cos (Real.pi / 9) * 1 * (7 : ℝ))
      (Real.sin (Real.pi / 9) * 2 * 7) = 7 * Real.cos (Real.pi / 9) := by
    rw [max_eq_left (by linarith)]
    ring
  have hm1 : max (Real.cos (Real.pi / 9) * (-1) * (5 : ℝ))
      (Real.sin (Real.pi / 9) * (-1) * 5) = -5 * Real.sin (Real.pi / 9) := by
    rw [max_eq_right (by linarith)]
    ring
  have hm2 : max (Real.cos (Real.pi / 9) * 2 * (5 : ℝ))
      (Real.sin (Real.pi / 9) * 0 * 5) = 10 * Real.cos (Real.pi / 9) := by
    rw [max_eq_left (by nlinarith)]
    ring
  have hm3 : max (Real.cos (Real.pi / 9) * 2 * (5 : ℝ))
      (Real.sin (Real.pi / 9) * 1 * 5) = 10 * Real.cos (Real.pi / 9) := by
    rw [max_eq_left (by linarith)]
    ring
  rw [hm0, hm1, hm2, hm3] at hvertex
  have hmax : umax
      (Engine.utilityAt ([7, 5, 5, 5] : List ℝ) [2, -1, 0, 1]
        (Real.cos (Real.pi / 9)) (Real.sin (Real.pi / 9)) [1, -1, 2, 2])
      (generateAllOffers 7 5 5 5) =
      27 * Real.cos (Real.pi / 9) - 5 * Real.sin (Real.pi / 9) := by
    rw [hvertex]
    ring
  have hu : Engine.utilityAt ([7, 5, 5, 5] : List ℝ) [2, -1, 0, 1]
      (Real.cos (Real.pi / 9)) (Real.sin (Real.pi / 9)) [1, -1, 2, 2]
      [7, 2, 1, 1] =
      13 * Real.cos (Real.pi / 9) + 13 * Real.sin (Real.pi / 9) := by
    simp only [Engine.utilityAt, subtractArrays_cons, subtractArrays_nil_left,
      dot_cons, dot_nil_left, dot_nil_right]
    ring
  refine ⟨?_, ?_, ?_, by ring, ?_, ?_⟩
  · exact (mem_arithSeq (by norm_num)).2 ⟨22, by norm_num, by norm_num⟩
  · rw [generateWGrid]
    refine List.mem_flatMap.2 ⟨1, ?_, ?_⟩
    · rw [wGridValues_default]
      norm_num
    refine List.mem_flatMap.2 ⟨-1, ?_, ?_⟩
    · rw [wGridValues_default]
      norm_num
    refine List.mem_flatMap.2 ⟨2, ?_, ?_⟩
    · rw [wGridValues_default]
      norm_num
    refine List.mem_map.2 ⟨2, ?_, rfl⟩
    rw [wGridValues_default]
    norm_num
  · refine ⟨rfl, ?_⟩
    intro i hi
    have hi4 : i < 4 := by simpa using hi
    interval_cases i <;>
      norm_num [List.getD_cons_zero, List.getD_cons_succ]
  · rw [emotionModel_utilityToEmotion_of_ne_nil _ _ _ _ _ _ _ hne,
      emotionModel_utility_eq_utilityAt]
    rw [show EmotionModel.utility ([7, 5, 5, 5] : List ℝ) [2, -1, 0, 1]
        (Real.cos (Real.pi / 9)) (Real.sin (Real.pi / 9)) [7, 2, 1, 1]
        [1, -1, 2, 2] =
        Engine.utilityAt ([7, 5, 5, 5] : List ℝ) [2, -1, 0, 1]
          (Real.cos (Real.pi / 9)) (Real.sin (Real.pi / 9)) [1, -1, 2, 2]
          [7, 2, 1, 1] from rfl]
    rw [hu, hmax]
    apply emotionLadder_eq_one
    · linarith
    · linarith
  · rw [predictEmotion_of_ne_nil _ _ _ _ _ _ _ _ hne]
    rw [show (([(Real.cos (Real.pi / 9), Real.sin (Real.pi / 9))] :
        List (ℝ × ℝ)).getD 0 (0, 0)) =
        (Real.cos (Real.pi / 9), Real.sin (Real.pi / 9)) from rfl]
    rw [show (([[1, -1, 2, 2]] : List (List ℝ)).getD 0 []) =
        ([1, -1, 2, 2] : List ℝ) from rfl]
    rw [show Engine.UMAX ([7, 5, 5, 5] : List ℝ) [2, -1, 0, 1]
        (generateAllOffers 7 5 5 5)
        [(Real.cos (Real.pi / 9), Real.sin (Real.pi / 9))] [[1, -1, 2, 2]]
        0 0 =
        umax
          (Engine.utilityAt ([7, 5, 5, 5] : List ℝ) [2, -1, 0, 1]
            (Real.cos (Real.pi / 9)) (Real.sin (Real.pi / 9)) [1, -1, 2, 2])
          (generateAllOffers 7 5 5 5) from rfl]
    rw [hu, hmax]
    apply utilityToEmotionCeil_eq_zero
    rw [abs_le]
    constructor
    · linarith
    · linarith

/-- C10 (amended): the ladder observation generator
(`EmotionModel.utilityToEmotion`, `NEUTRAL_EPSILON = 0`) and the
inference-time ceil predictor (`_predictEmotionFast`, tolerance `1e-3`)
produce the same label at every utility/maximum pair whose
`delta = utility - (maxU - 7)` is either exactly `0` or outside the
punctured band `0 < |delta| ≤ 1e-3`; inside that band they disagree (the
ladder answers `-1` or `1` where the ceil mapping answers `0`), as the
counterexample exhibits on the actual grid. -/
theorem C10_ladder_agrees_outside_band {K : Type*} [LinearOrderedField K]
    [FloorRing K] (u maxU : K)
    (h : u - (maxU - 7) = 0 ∨ 1 / 1000 < |u - (maxU - 7)|) :
    emotionLadder 0 u maxU = utilityToEmotionCeil u maxU := by
  rcases h with h0 | hband
  · have hl : emotionLadder 0 u maxU = 0 := by
      unfold emotionLadder
      rw [if_neg (by intro hc; linarith), if_pos (by rw [h0]; norm_num)]
    have hr : utilityToEmotionCeil u maxU = 0 :=
      utilityToEmotionCeil_eq_zero (by rw [h0]; norm_num)
    rw [hl, hr]
  · rcases lt_or_le 0 (u - (maxU - 7)) with hpos | hnonpos
    · have hgt : 1 / 1000 < u - (maxU - 7) := by
        rwa [abs_of_pos hpos] at hband
      rw [emotionLadder_eq_min_ceil hpos, utilityToEmotionCeil_eq_joy hgt]
    · have hlt : u - (maxU - 7) < -(1 / 1000) := by
        rw [abs_of_nonpos (by linarith)] at hband
        linarith
      have hl : emotionLadder 0 u maxU = -1 := by
        unfold emotionLadder
        rw [if_pos (by linarith)]
      have hr : utilityToEmotionCeil u maxU = -1 := by
        unfold utilityToEmotionCeil
        rw [if_pos hlt]
      rw [hl, hr]

/-- Witness for C10 (amended) at `delta = 7` over `ℚ` (both mappings return
`Joy7`); the hypothesis is discharged on the right side of the band. -/
theorem C10_witness :
    ((22 : ℚ) - (22 - 7) = 0 ∨ 1 / 1000 < |(22 : ℚ) - (22 - 7)|) ∧
    emotionLadder 0 (22 : ℚ) 22 = utilityToEmotionCeil (22 : ℚ) 22 :=
  ⟨Or.inr (by norm_num),
    C10_ladder_agrees_outside_band (22 : ℚ) 22 (Or.inr (by norm_num))⟩

end Claims

end BayesDemo
